import Mathlib

/-!
Verification of the booking conflict-detection and availability-reservation
engine of the chedula scheduling backend.

Shallow embedding conventions:
* time instants (Django `DateTimeField`) are integers (seconds); intervals are
  half-open `[start, end)`;
* money (`DecimalField`) and durations-in-hours are rationals;
* Django row ids (UUIDs) are naturals, drawn from a `next_id` counter;
* a Python value that may be `None` is an `Option`;
* Python truthiness of an optional numeric (`None` and `0` falsy) is `truthy`;
* querysets become list filters over the explicit database state `DB`.
-/

namespace Chedula

/-- `Service.availability_type` choices (service_catalog/models.py). -/
inductive AvailabilityType
  | unlimited
  | limited
  | unique
deriving DecidableEq

/-- `Booking.STATUS_CHOICES` (calendar_mgmt/models.py). -/
inductive BookingStatus
  | pending
  | confirmed
  | in_progress
  | completed
  | cancelled
  | no_show
deriving DecidableEq

/-- Membership in `['confirmed', 'pending', 'in_progress']`, the status filter
used by every overlap query in calendar_mgmt/services.py. -/
def BookingStatus.isActive : BookingStatus → Bool
  | .confirmed => true
  | .pending => true
  | .in_progress => true
  | _ => false

/-- Conflict severity strings used in calendar_mgmt/services.py. -/
inductive Severity
  | low
  | medium
  | high
  | critical
deriving DecidableEq

/-- `ConflictLog.CONFLICT_TYPES` (calendar_mgmt/models.py). -/
inductive ConflictType
  | service_overlap
  | time_conflict
  | availability_limit
  | business_hours
deriving DecidableEq

/-- `ConflictLog.RESOLUTION_STATUS` (calendar_mgmt/models.py). -/
inductive ResolutionStatus
  | detected
  | resolved
  | ignored
  | escalated
deriving DecidableEq

/-- `BookingService.service_status` choices (calendar_mgmt/models.py). -/
inductive ServiceStatus
  | reserved
  | prepared
  | delivered
  | in_use
  | returned
  | damaged
deriving DecidableEq

/-- `Booking.CREATED_VIA_CHOICES` (calendar_mgmt/models.py). -/
inductive CreatedVia
  | manual
  | ai_assistant
  | booking_link
  | api_channel
deriving DecidableEq

/-- Python truthiness of an optional numeric field: `None` and `0` are falsy.
Used for `self.price_per_hour`, `confidence_score`, ... in the source. -/
def truthy : Option ℚ → Bool
  | none => false
  | some x => decide (x ≠ 0)

/-- A `Service` row (service_catalog/models.py), restricted to the fields the
scheduling core reads: identity/tenant, availability policy and quantity,
active flag, the rate card, and the name (used for name resolution). -/
structure Service where
  id : ℕ
  user_id : ℕ
  name : String
  availability_type : AvailabilityType
  quantity_available : ℤ
  is_active : Bool
  base_price : ℚ
  price_per_hour : Option ℚ
  price_per_day : Option ℚ
  price_per_week : Option ℚ
deriving DecidableEq

/-- `Service.get_price_for_duration` (service_catalog/models.py lines 313-333),
with `duration_hours` a rational.  Python `//` and `%` on positives are floor
division and remainder; `and` with a Decimal field tests truthiness. -/
def get_price_for_duration (s : Service) (d : ℚ) : ℚ :=
  if d ≤ 1 ∧ truthy s.price_per_hour then s.price_per_hour.getD 0
  else if d ≤ 24 ∧ truthy s.price_per_day then s.price_per_day.getD 0
  else if d ≤ 168 ∧ truthy s.price_per_week then s.price_per_week.getD 0
  else if truthy s.price_per_week ∧ 168 < d then
    (⌊d / 168⌋ : ℚ) * s.price_per_week.getD 0
      + get_price_for_duration s (d - 168 * (⌊d / 168⌋ : ℚ))
  else if truthy s.price_per_day then
    ((max 1 ⌊d / 24⌋ : ℤ) : ℚ) * s.price_per_day.getD 0
  else if truthy s.price_per_hour then d * s.price_per_hour.getD 0
  else s.base_price
termination_by (⌊d / 168⌋).toNat
decreasing_by
  rename_i h1 h2 h3 h4
  have hd : (168 : ℚ) < d := h4.2
  have hfl : (1 : ℤ) ≤ ⌊d / 168⌋ := by
    rw [Int.le_floor]
    push_cast
    rw [le_div_iff (by norm_num : (0:ℚ) < 168)]
    linarith
  have hrem0 : (0 : ℚ) ≤ d - 168 * (⌊d / 168⌋ : ℚ) := by
    have := Int.floor_le (d / 168)
    have h168 : (0:ℚ) < 168 := by norm_num
    nlinarith [this]
  have hrem1 : d - 168 * (⌊d / 168⌋ : ℚ) < 168 := by
    have := Int.lt_floor_add_one (d / 168)
    have h168 : (0:ℚ) < 168 := by norm_num
    nlinarith [this]
  have hz : ⌊(d - 168 * (⌊d / 168⌋ : ℚ)) / 168⌋ = 0 := by
    rw [Int.floor_eq_zero_iff]
    constructor
    · positivity
    · rw [div_lt_one (by norm_num : (0:ℚ) < 168)]
      exact hrem1
  rw [hz]
  omega

/-- A `Booking` row (calendar_mgmt/models.py), restricted to the fields the
scheduling core reads (presentation fields such as description, notes, color
and the Google/recurrence fields are never consulted by a claim). -/
structure Booking where
  id : ℕ
  user_id : ℕ
  customer_id : ℕ
  title : String
  start_time : ℤ
  end_time : ℤ
  all_day : Bool
  status : BookingStatus
  created_via : CreatedVia
  ai_session_id : Option ℕ
  ai_confidence_score : Option ℚ
deriving DecidableEq

/-- A `BookingService` row (calendar_mgmt/models.py): one booking's claim on
one service. -/
structure BookingServiceRec where
  booking_id : ℕ
  service_id : ℕ
  quantity : ℤ
  price_per_unit : ℚ
  total_price : ℚ
  service_status : ServiceStatus
deriving DecidableEq

/-- A `Customer` row (customer/models.py), fields used by admission. -/
structure Customer where
  id : ℕ
  user_id : ℕ
  first_name : String
  last_name : String
  email : String
  phone : String
  company : String
deriving DecidableEq

/-- `CalendarSettings` (calendar_mgmt/models.py), fields used by the core:
business hours (seconds from midnight) and the AI auto-confirm policy. -/
structure CalendarSettings where
  user_id : ℕ
  business_hours_start : ℤ
  business_hours_end : ℤ
  ai_booking_auto_confirm : Bool
  ai_confidence_threshold : ℚ
deriving DecidableEq

/-- A `ConflictLog` row (calendar_mgmt/models.py), fields written at admission. -/
structure ConflictLogRec where
  user_id : ℕ
  conflict_type : ConflictType
  primary_booking : ℕ
  severity : Severity
  resolution_status : ResolutionStatus
deriving DecidableEq

/-- The persisted state: one list per table, plus an id source for new rows. -/
structure DB where
  services : List Service
  settings : List CalendarSettings
  customers : List Customer
  bookings : List Booking
  booking_services : List BookingServiceRec
  conflict_logs : List ConflictLogRec
  next_id : ℕ
deriving DecidableEq

/-- `Service.objects.get(id=service_id, user_id=user_id)` (no active filter). -/
def DB.getService (db : DB) (uid sid : ℕ) : Option Service :=
  db.services.find? (fun s => s.id == sid && s.user_id == uid)

/-- `CalendarSettings.objects.get(user_id=user_id)`. -/
def DB.getSettings (db : DB) (uid : ℕ) : Option CalendarSettings :=
  db.settings.find? (fun st => st.user_id == uid)

/-- The `booking_services__service_id=sid` join condition on a booking. -/
def DB.bookingHasService (db : DB) (b : Booking) (sid : ℕ) : Bool :=
  db.booking_services.any (fun r => r.booking_id == b.id && r.service_id == sid)

/-- `.exclude(id=exclude_booking_id)` when an exclusion is given. -/
def notExcluded (excl : Option ℕ) (b : Booking) : Bool :=
  match excl with
  | none => true
  | some x => b.id != x

/-- The overlapping-active-bookings query used (with identical filters) by
`_detect_service_conflicts` and `_detect_availability_conflicts`: tenant
filter, join on the service, strict half-open overlap
`start_time__lt=end_time, end_time__gt=start_time`, statuses
`confirmed/pending/in_progress`, optional exclusion.  `.distinct()` is a
no-op here because filtering the booking list yields each row once. -/
def DB.overlappingBookings (db : DB) (uid sid : ℕ) (s e : ℤ) (excl : Option ℕ) :
    List Booking :=
  db.bookings.filter (fun b =>
    b.user_id == uid && db.bookingHasService b sid &&
    decide (b.start_time < e) && decide (s < b.end_time) &&
    b.status.isActive && notExcluded excl b)

/-- `booking.booking_services.filter(service_id=sid).first()`. -/
def DB.firstBookingService (db : DB) (b : Booking) (sid : ℕ) :
    Option BookingServiceRec :=
  db.booking_services.find? (fun r => r.booking_id == b.id && r.service_id == sid)

/-- The `total_quantity_used` accumulation of `_detect_service_conflicts`:
each overlapping booking contributes the quantity of its first
booking-service row for the service (0 when there is none). -/
def DB.totalQuantityUsed (db : DB) (l : List Booking) (sid : ℕ) : ℤ :=
  (l.map (fun b => ((db.firstBookingService b sid).map (·.quantity)).getD 0)).sum

/-- Suggestion kinds emitted by conflict detection. -/
inductive SuggestionType
  | reschedule_earlier
  | reschedule_later
  | adjust_time
deriving DecidableEq

/-- A resolution suggestion attached to a conflict. -/
structure Suggestion where
  stype : SuggestionType
  suggested_start : ℤ
  suggested_end : ℤ
deriving DecidableEq

/-- A conflict dictionary as produced by `ConflictDetectionService`; fields not
set by a given conflict kind keep their defaults. -/
structure Conflict where
  ctype : ConflictType
  severity : Severity
  service_id : Option ℕ := none
  conflicting_booking_id : Option ℕ := none
  conflicting_bookings : List ℕ := []
  overlap_start : Option ℤ := none
  overlap_end : Option ℤ := none
  suggestions : List Suggestion := []
deriving DecidableEq

/-- `_generate_conflict_suggestions` (the `service` argument is unused by the
source).  Earlier slot ending at the conflicting booking's start, and later
slot starting at its end, each keeping the requested duration. -/
def generate_conflict_suggestions (requested_start requested_end : ℤ)
    (b : Booking) : List Suggestion :=
  (if requested_start < b.start_time then
    [{ stype := .reschedule_earlier,
       suggested_start := b.start_time - (requested_end - requested_start),
       suggested_end := b.start_time }]
   else []) ++
  (if b.end_time < requested_end then
    [{ stype := .reschedule_later,
       suggested_start := b.end_time,
       suggested_end := b.end_time + (requested_end - requested_start) }]
   else [])

/-- `ConflictDetectionService._detect_service_conflicts` (lines 83-147).  Only
`unlimited` services are skipped, so the quantity arithmetic also runs for
`unique` services.  An unknown service yields no conflicts (logged warning). -/
def detect_service_conflicts (db : DB) (uid sid : ℕ) (s e : ℤ)
    (excl : Option ℕ) : List Conflict :=
  match db.getService uid sid with
  | none => []
  | some svc =>
    if svc.availability_type = .unlimited then []
    else
      let ov := db.overlappingBookings uid sid s e excl
      let used := db.totalQuantityUsed ov sid
      let requested : ℤ := 1
      if svc.quantity_available < used + requested then
        ov.map (fun b =>
          { ctype := .service_overlap
            severity := .high
            service_id := some sid
            conflicting_booking_id := some b.id
            overlap_start := some (max s b.start_time)
            overlap_end := some (min e b.end_time)
            suggestions := generate_conflict_suggestions s e b })
      else []

/-- Seconds from midnight of an instant (`datetime.time()`). -/
def timeOfDay (t : ℤ) : ℤ := t % 86400

/-- Midnight of the instant's day (`datetime.date()` re-anchored). -/
def dayStart (t : ℤ) : ℤ := t - t % 86400

/-- `ConflictDetectionService._detect_business_hours_conflicts` (lines 149-184):
one medium conflict when the start-of-day time is before opening or the
end-of-day time after closing; absent settings mean no restriction. -/
def detect_business_hours_conflicts (db : DB) (uid : ℕ) (s e : ℤ) :
    List Conflict :=
  match db.getSettings uid with
  | none => []
  | some st =>
    if timeOfDay s < st.business_hours_start ∨
        st.business_hours_end < timeOfDay e then
      [{ ctype := .business_hours
         severity := .medium
         suggestions := [{ stype := .adjust_time,
                           suggested_start := dayStart s + st.business_hours_start,
                           suggested_end := dayStart e + st.business_hours_end }] }]
    else []

/-- `ConflictDetectionService._detect_availability_conflicts` (lines 186-235):
for each `unique` service, any overlapping active booking (other than the
excluded one) yields one critical `availability_limit` conflict listing all
conflicting bookings.  The inline query repeats exactly the filters of
`DB.overlappingBookings`. -/
def detect_availability_conflicts (db : DB) (uid : ℕ) (sids : List ℕ)
    (s e : ℤ) (excl : Option ℕ) : List Conflict :=
  sids.flatMap (fun sid =>
    match db.getService uid sid with
    | none => []
    | some svc =>
      if svc.availability_type = .unique then
        let existing := db.overlappingBookings uid sid s e excl
        if existing.isEmpty then []
        else
          [{ ctype := .availability_limit
             severity := .critical
             service_id := some sid
             conflicting_bookings := existing.map (·.id) }]
      else [])

/-- `ConflictDetectionService.detect_conflicts` (lines 34-81) after datetime
normalisation (the admission caller passes resolved instants): per-service
conflicts, then business hours, then availability limits, all unioned. -/
def detect_conflicts (db : DB) (uid : ℕ) (s e : ℤ) (sids : List ℕ)
    (excl : Option ℕ) : List Conflict :=
  (sids.flatMap (fun sid => detect_service_conflicts db uid sid s e excl))
  ++ detect_business_hours_conflicts db uid s e
  ++ detect_availability_conflicts db uid sids s e excl

/-- A quantity report that may be `float('inf')`. -/
inductive QtyVal
  | infinite
  | finite (n : ℤ)
deriving DecidableEq

/-- The availability dictionary returned by
`AvailabilityService._check_service_availability`; keys a branch does not set
keep their defaults. -/
structure AvailInfo where
  available : Bool
  reason : Option String := none
  quantity_available : Option QtyVal := none
  quantity_total : Option QtyVal := none
  quantity_used : Option ℤ := none
  conflicting_bookings : List ℕ := []
deriving DecidableEq

/-- `AvailabilityService._check_service_availability` (calendar_mgmt/services.py
lines 308-366).  The overlap query has the same filters as detection but no
exclusion; `total_quantity_used` aggregates the quantities of all rows of each
overlapping booking for the service; the reported `quantity_available` is
clamped at 0 while `available` is decided on the unclamped difference.  The
`if overlapping_bookings.exists() else []` guard is the identity on the
mapped list. -/
def AvailabilityService.check_service_availability (db : DB) (svc : Service)
    (s e : ℤ) (uid : ℕ) : AvailInfo :=
  if !svc.is_active then
    { available := false
      reason := some "Service is not active"
      quantity_available := some (.finite 0)
      quantity_total := some (.finite svc.quantity_available) }
  else if svc.availability_type = .unlimited then
    { available := true
      quantity_available := some .infinite
      quantity_total := some .infinite }
  else
    let ov := db.bookings.filter (fun b =>
      b.user_id == uid && db.bookingHasService b svc.id &&
      decide (b.start_time < e) && decide (s < b.end_time) && b.status.isActive)
    let used := (ov.map (fun b =>
      ((db.booking_services.filter (fun r =>
        r.booking_id == b.id && r.service_id == svc.id)).map (·.quantity)).sum)).sum
    let qa := svc.quantity_available - used
    { available := decide (0 < qa)
      quantity_available := some (.finite (max 0 qa))
      quantity_total := some (.finite svc.quantity_available)
      quantity_used := some used
      conflicting_bookings := ov.map (·.id) }

/-- The dictionary returned by `ServiceCatalogService.check_service_availability`. -/
structure CatalogAvail where
  available : Bool
  reason : Option String := none
  available_quantity : Option ℤ := none
deriving DecidableEq

/-- `ServiceCatalogService.check_service_availability`
(service_catalog/services.py lines 160-225).  Unlike the calendar variant it
sums `BookingService` rows directly — joined to their parent booking for the
overlap/status filters but with no tenant filter on the booking — reports the
unclamped remainder, and compares it with the requested quantity. -/
def ServiceCatalogService.check_service_availability (db : DB) (uid sid : ℕ)
    (s e : ℤ) (quantity : ℤ) : CatalogAvail :=
  match db.getService uid sid with
  | none => { available := false, reason := some "Service not found" }
  | some svc =>
    if !svc.is_active then
      { available := false, reason := some "Service is not active" }
    else if svc.availability_type = .unlimited then
      { available := true, available_quantity := some quantity }
    else
      let booked := ((db.booking_services.filter (fun r =>
        r.service_id == svc.id && db.bookings.any (fun b =>
          b.id == r.booking_id && decide (b.start_time < e) &&
          decide (s < b.end_time) && b.status.isActive))).map (·.quantity)).sum
      let availq := svc.quantity_available - booked
      if quantity ≤ availq then
        { available := true, available_quantity := some availq }
      else
        { available := false
          reason := some "Insufficient quantity available"
          available_quantity := some availq }

/-- A value arriving in `booking_data['start_time']` / `['end_time']`: already
a `datetime`, an ISO string parsing to an instant, or an unparseable string. -/
inductive DTValue
  | dt (t : ℤ)
  | iso (t : ℤ)
  | invalid
deriving DecidableEq

/-- `CalendarManagementService._parse_datetime` (lines 687-700): datetimes pass
through, ISO strings parse, and an invalid format silently falls back to
`timezone.now()` (the `now` argument) instead of erroring. -/
def parse_datetime (v : DTValue) (now : ℤ) : ℤ :=
  match v with
  | .dt t => t
  | .iso t => t
  | .invalid => now

/-- `booking_data['customer']` payload; an absent dict key is `none`. -/
structure CustomerData where
  email : Option String := none
  first_name : Option String := none
  last_name : Option String := none
  name : Option String := none
  phone : Option String := none
  company : Option String := none
deriving DecidableEq

/-- One entry of `booking_data['services']`. -/
structure ServiceRefData where
  id : Option ℕ := none
  name : Option String := none
deriving DecidableEq

/-- `booking_data` for `create_booking_from_ai`; required-field presence is
`Option`-ness of the corresponding field. -/
structure BookingData where
  title : Option String := none
  description : Option String := none
  start_time : Option DTValue := none
  end_time : Option DTValue := none
  customer : Option CustomerData := none
  services : Option (List ServiceRefData) := none
  all_day : Option Bool := none
deriving DecidableEq

/-- Python `str.lower()`, character by character. -/
def pyLower (s : String) : String := ⟨s.data.map Char.toLower⟩

/-- Python `str.strip()`: drop whitespace from both ends. -/
def pyStrip (s : String) : String :=
  ⟨((s.data.dropWhile Char.isWhitespace).reverse.dropWhile
      Char.isWhitespace).reverse⟩

/-- `CalendarManagementService._get_or_create_customer` (lines 638-658): look
up by stripped, lowercased email when one is given, else create a new
customer row from the provided fields. -/
def get_or_create_customer (db : DB) (uid : ℕ) (cd : CustomerData) :
    Customer × DB :=
  let email := pyLower (pyStrip (cd.email.getD ""))
  let createNew : Customer × DB :=
    let c : Customer :=
      { id := db.next_id
        user_id := uid
        first_name := pyStrip (cd.first_name.getD (cd.name.getD ""))
        last_name := pyStrip (cd.last_name.getD "")
        email := email
        phone := pyStrip (cd.phone.getD "")
        company := pyStrip (cd.company.getD "") }
    (c, { db with customers := db.customers ++ [c], next_id := db.next_id + 1 })
  if email ≠ "" then
    match db.customers.find? (fun c => c.user_id == uid && c.email == email) with
    | some c => (c, db)
    | none => createNew
  else createNew

/-- `name__icontains=needle` where the needle is already lowercased: the
lowercased column contains the needle as a substring. -/
def nameIContains (column needle : String) : Bool :=
  ((pyLower column).data).tails.any (fun t => needle.data.isPrefixOf t)

/-- `CalendarManagementService._validate_services` (lines 660-685): resolve
each entry by id (tenant-scoped, active only) or by case-insensitive name
containment taking the first match; unresolvable entries are silently
dropped. -/
def validate_services (db : DB) (uid : ℕ) (l : List ServiceRefData) :
    List Service :=
  l.flatMap (fun sd =>
    match sd.id with
    | some sid =>
      match db.services.find? (fun s =>
        s.id == sid && s.user_id == uid && s.is_active) with
      | some s => [s]
      | none => []
    | none =>
      let nm := pyLower (pyStrip (sd.name.getD ""))
      if nm = "" then []
      else
        match db.services.find? (fun s =>
          s.user_id == uid && s.is_active && nameIContains s.name nm) with
        | some s => [s]
        | none => [])

/-- The per-service price computed inside `create_booking_from_ai` (lines
519-530): hourly rate times hours when an hourly rate is set, else daily rate
times `max(1, hours / 24)` (true division), else the base price.  It does not
call `get_price_for_duration` and never consults the weekly rate. -/
def ai_booking_price (svc : Service) (duration_hours : ℚ) : ℚ :=
  if truthy svc.price_per_hour then svc.price_per_hour.getD 0 * duration_hours
  else if truthy svc.price_per_day then
    svc.price_per_day.getD 0 * max 1 (duration_hours / 24)
  else svc.base_price

/-- The response dictionary of `create_booking_from_ai`. -/
structure AdmissionResult where
  success : Bool
  error : Option String := none
  field_errors : List (String × String) := []
  booking_id : Option ℕ := none
  conflicts : List Conflict := []
  auto_confirmed : Bool := false
  total_price : ℚ := 0
deriving DecidableEq

/-- A missing required field's response (lines 450-456). -/
def missingField (f : String) : AdmissionResult :=
  { success := false
    error := some ("Missing required field: " ++ f)
    field_errors := [(f, "This field is required")] }

/-- The `BookingService` creation loop of `create_booking_from_ai` (lines
519-541).  Creating a second row for the same (booking, service) pair
violates `unique_together ['booking', 'service']`; the raised `IntegrityError`
aborts the whole database transaction (on PostgreSQL the final commit of an
aborted transaction rolls everything back, even though the `except` clause
swallows the exception), modelled as `none`. -/
def create_booking_services (bid : ℕ) (dur : ℚ) :
    List Service → List BookingServiceRec → ℚ →
    Option (List BookingServiceRec × ℚ)
  | [], acc, tot => some (acc, tot)
  | svc :: rest, acc, tot =>
    if acc.any (fun r => r.service_id == svc.id) then none
    else
      let price := ai_booking_price svc dur
      create_booking_services bid dur rest
        (acc ++ [{ booking_id := bid
                   service_id := svc.id
                   quantity := 1
                   price_per_unit := price
                   total_price := price
                   service_status := .reserved }]) (tot + price)

/-- The auto-confirmation decision of `create_booking_from_ai` (lines
489-499): settings must exist with the flag on, the confidence score is
tested by Python truthiness (so `None` and `0.0` both disable), compared with
the threshold, and no detected conflict may have severity high or critical;
a missing `CalendarSettings` row means no auto-confirmation. -/
def admissionAutoConfirm (db1 : DB) (uid : ℕ) (confidence_score : Option ℚ)
    (conflicts : List Conflict) : Bool :=
  match db1.getSettings uid with
  | none => false
  | some st =>
    st.ai_booking_auto_confirm && truthy confidence_score &&
    decide (st.ai_confidence_threshold ≤ confidence_score.getD 0) &&
    !(conflicts.any (fun c => c.severity == .high || c.severity == .critical))

/-- The `Booking.objects.create` call of `create_booking_from_ai` (lines
501-516). -/
def admissionBooking (db1 : DB) (uid : ℕ) (customer : Customer)
    (title : String) (start_time end_time : ℤ) (all_day : Bool)
    (auto_confirm : Bool) (sess : Option ℕ) (conf : Option ℚ) : Booking :=
  { id := db1.next_id
    user_id := uid
    customer_id := customer.id
    title := title
    start_time := start_time
    end_time := end_time
    all_day := all_day
    status := if auto_confirm then .confirmed else .pending
    created_via := .ai_assistant
    ai_session_id := sess
    ai_confidence_score := conf }

/-- The `ConflictLog.objects.create` loop of `create_booking_from_ai` (lines
543-552): one `detected` log row per conflict, attached to the new booking. -/
def admissionLogs (uid : ℕ) (conflicts : List Conflict) (bid : ℕ) :
    List ConflictLogRec :=
  conflicts.map (fun c =>
    { user_id := uid
      conflict_type := c.ctype
      primary_booking := bid
      severity := c.severity
      resolution_status := .detected })

/-- The committed state of a successful admission: the new booking, its
booking-service rows and conflict logs appended, and the id counter bumped. -/
def admissionCommit (db1 : DB) (booking : Booking)
    (rows : List BookingServiceRec) (logs : List ConflictLogRec) : DB :=
  { db1 with
    bookings := db1.bookings ++ [booking]
    booking_services := db1.booking_services ++ rows
    conflict_logs := db1.conflict_logs ++ logs
    next_id := db1.next_id + 1 }

/-- `CalendarManagementService.create_booking_from_ai` (lines 425-573).

Faithful to the transaction semantics of `@transaction.atomic` around a body
whose `try/except` swallows exceptions: an early `return` (validation
failure) is a normal exit, so writes already made — in particular the
customer row created before service/time validation — are committed; a
database `IntegrityError` (duplicate booking service) aborts the transaction
so every write of the call is rolled back while the handler still reports
failure.  The fire-and-forget notification is a no-op here. -/
def create_booking_from_ai (db : DB) (uid : ℕ) (bd : BookingData) (now : ℤ)
    (ai_session_id : Option ℕ) (confidence_score : Option ℚ) :
    AdmissionResult × DB :=
  match bd.title with
  | none => (missingField "title", db)
  | some title =>
  match bd.start_time with
  | none => (missingField "start_time", db)
  | some stv =>
  match bd.end_time with
  | none => (missingField "end_time", db)
  | some etv =>
  match bd.customer with
  | none => (missingField "customer", db)
  | some cd =>
  match bd.services with
  | none => (missingField "services", db)
  | some sds =>
    let cdb := get_or_create_customer db uid cd
    let customer := cdb.1
    let db1 := cdb.2
    let services := validate_services db1 uid sds
    if services.isEmpty then
      ({ success := false
         error := some "No valid services found"
         field_errors := [("services", "At least one valid service is required")] },
       db1)
    else
      let start_time := parse_datetime stv now
      let end_time := parse_datetime etv now
      if end_time ≤ start_time then
        ({ success := false
           error := some "End time must be after start time"
           field_errors := [("end_time", "Must be after start time")] },
         db1)
      else
        let service_ids := services.map (·.id)
        let conflicts := detect_conflicts db1 uid start_time end_time service_ids none
        let auto_confirm := admissionAutoConfirm db1 uid confidence_score conflicts
        let booking := admissionBooking db1 uid customer title start_time
          end_time (bd.all_day.getD false) auto_confirm ai_session_id
          confidence_score
        let dur : ℚ := ((end_time - start_time : ℤ) : ℚ) / 3600
        match create_booking_services booking.id dur services [] 0 with
        | none =>
          ({ success := false, error := some "Failed to create booking" }, db)
        | some rt =>
          let logs := admissionLogs uid conflicts booking.id
          ({ success := true
             booking_id := some booking.id
             conflicts := conflicts
             auto_confirmed := auto_confirm
             total_price := rt.2 }, admissionCommit db1 booking rt.1 logs)

/-- The inputs of one admission call. -/
structure AdmissionCall where
  uid : ℕ
  data : BookingData
  now : ℤ
  ai_session_id : Option ℕ := none
  confidence_score : Option ℚ := none
deriving DecidableEq

/-- A sequence of booking-admission operations applied one at a time. -/
def runAdmissions (db : DB) (l : List AdmissionCall) : DB :=
  l.foldl (fun d c =>
    (create_booking_from_ai d c.uid c.data c.now c.ai_session_id c.confidence_score).2) db

/-- An initial state: catalog and settings present, empty schedule. -/
def initialDB (services : List Service) (settings : List CalendarSettings)
    (nid : ℕ) : DB :=
  { services := services
    settings := settings
    customers := []
    bookings := []
    booking_services := []
    conflict_logs := []
    next_id := nid }

/-! ## Statement-level predicates

These predicates express the specified properties the theorems below are
about; they quantify over the embedded state. -/

/-- A booking counts toward usage when its status is in
`confirmed/pending/in_progress`. -/
def isActiveBooking (b : Booking) : Bool := b.status.isActive

/-- A confirmed booking. -/
def isConfirmed (b : Booking) : Bool := b.status == .confirmed

/-- Sum of claimed quantities, at instant `t`, of the booking-service rows on
service `sid` whose parent booking satisfies `p` and whose half-open interval
contains `t`. -/
def usageAt (db : DB) (sid : ℕ) (t : ℤ) (p : Booking → Bool) : ℤ :=
  ((db.booking_services.filter (fun r =>
    r.service_id == sid && db.bookings.any (fun b =>
      b.id == r.booking_id && p b &&
      decide (b.start_time ≤ t) && decide (t < b.end_time)))).map
    (·.quantity)).sum

/-- The schedule invariant asserted over admission sequences: `limited`
services never exceed their total quantity at any instant counting
pending/confirmed/in_progress reservations, and `unique` services never carry
two overlapping such reservations. -/
def ClaimedScheduleInvariant (db : DB) : Prop :=
  ∀ svc ∈ db.services,
    (svc.availability_type = .limited →
      ∀ t : ℤ, usageAt db svc.id t isActiveBooking ≤ svc.quantity_available) ∧
    (svc.availability_type = .unique →
      ∀ b1 ∈ db.bookings, ∀ b2 ∈ db.bookings,
        isActiveBooking b1 = true → isActiveBooking b2 = true →
        db.bookingHasService b1 svc.id = true →
        db.bookingHasService b2 svc.id = true →
        b1.start_time < b2.end_time → b2.start_time < b1.end_time →
        b1.id = b2.id)

/-- The capacity invariant restricted to confirmed bookings (with at least one
unit of capacity for `limited` services). -/
def ConfirmedCapacityInvariant (db : DB) : Prop :=
  ∀ svc ∈ db.services,
    (svc.availability_type = .limited → 1 ≤ svc.quantity_available →
      ∀ t : ℤ, usageAt db svc.id t isConfirmed ≤ svc.quantity_available) ∧
    (svc.availability_type = .unique →
      ∀ b1 ∈ db.bookings, ∀ b2 ∈ db.bookings,
        isConfirmed b1 = true → isConfirmed b2 = true →
        db.bookingHasService b1 svc.id = true →
        db.bookingHasService b2 svc.id = true →
        b1.start_time < b2.end_time → b2.start_time < b1.end_time →
        b1.id = b2.id)

/-- Well-formedness of a state: primary keys are distinct and below the id
counter, every booking-service row carries quantity 1 (the only quantity the
admission path writes), references an existing booking, joins bookings and
services of the same tenant, and respects the
`unique_together ['booking', 'service']` constraint. -/
structure DBWF (db : DB) : Prop where
  services_nodup : (db.services.map (·.id)).Nodup
  bookings_nodup : (db.bookings.map (·.id)).Nodup
  bookings_lt : ∀ b ∈ db.bookings, b.id < db.next_id
  rows_quantity : ∀ r ∈ db.booking_services, r.quantity = 1
  rows_parent : ∀ r ∈ db.booking_services, ∃ b ∈ db.bookings, b.id = r.booking_id
  rows_user : ∀ r ∈ db.booking_services, ∀ b ∈ db.bookings,
    b.id = r.booking_id → ∀ svc ∈ db.services, svc.id = r.service_id →
    b.user_id = svc.user_id
  rows_key_nodup :
    (db.booking_services.map (fun r => (r.booking_id, r.service_id))).Nodup

/-- The used-quantity formula of the specification: sum of claimed quantities
of the service's booking-service rows whose parent booking is active and
overlaps the window under the strict half-open rule.  (This is also exactly
the aggregation performed by the catalog availability check.) -/
def rowUsage (db : DB) (sid : ℕ) (s e : ℤ) : ℤ :=
  ((db.booking_services.filter (fun r =>
    r.service_id == sid && db.bookings.any (fun b =>
      b.id == r.booking_id && decide (b.start_time < e) &&
      decide (s < b.end_time) && b.status.isActive))).map (·.quantity)).sum

/-! ## Concrete fixtures used by counterexamples and witnesses -/

/-- A `unique` service. -/
def kayak : Service :=
  { id := 1, user_id := 1, name := "kayak", availability_type := .unique,
    quantity_available := 1, is_active := true, base_price := 50,
    price_per_hour := none, price_per_day := none, price_per_week := none }

/-- An `unlimited` service (no conflict checks apply to it). -/
def studio : Service :=
  { id := 2, user_id := 1, name := "studio", availability_type := .unlimited,
    quantity_available := 1, is_active := true, base_price := 0,
    price_per_hour := none, price_per_day := none, price_per_week := none }

/-- A `limited` service with an hourly rate. -/
def camera : Service :=
  { id := 3, user_id := 1, name := "camera", availability_type := .limited,
    quantity_available := 5, is_active := true, base_price := 100,
    price_per_hour := some 10, price_per_day := none, price_per_week := none }

/-- A rate card with a non-negative hourly rate above the daily rate. -/
def dvdPlayer : Service :=
  { id := 4, user_id := 1, name := "player", availability_type := .limited,
    quantity_available := 1, is_active := true, base_price := 0,
    price_per_hour := some 2, price_per_day := some 1, price_per_week := none }

/-- Tenant settings with auto-confirm on and threshold 0. -/
def permissiveSettings : CalendarSettings :=
  { user_id := 1, business_hours_start := 0, business_hours_end := 86400,
    ai_booking_auto_confirm := true, ai_confidence_threshold := 0 }

/-- A well-formed admission request for the kayak on `[0, 100)`. -/
def kayakReq : BookingData :=
  { title := some "trip", start_time := some (.dt 0), end_time := some (.dt 100),
    customer := some { email := some "a@b.c" },
    services := some [{ id := some 1 }] }

/-- The kayak admission call. -/
def kayakCall : AdmissionCall := { uid := 1, data := kayakReq, now := 0 }

/-- Initial tenant state holding only the kayak. -/
def kayakDB0 : DB := initialDB [kayak] [] 10

/-- State after one kayak admission. -/
def kayakOne : DB := runAdmissions kayakDB0 [kayakCall]

/-- State after two identical kayak admissions. -/
def kayakTwo : DB := runAdmissions kayakDB0 [kayakCall, kayakCall]

/-- Request for the unlimited studio on `[0, 100)`. -/
def studioReq : BookingData :=
  { title := some "shoot", start_time := some (.dt 0),
    end_time := some (.dt 100),
    customer := some { email := some "a@b.c" },
    services := some [{ id := some 2 }] }

/-- The admission of `studioReq` with a supplied confidence score of 0 under
`permissiveSettings` (threshold 0). -/
def zeroConfidenceRun : AdmissionResult × DB :=
  create_booking_from_ai (initialDB [studio] [permissiveSettings] 20) 1
    studioReq 0 none (some 0)

/-- A rate card with all rates set and ordered hourly ≤ daily ≤ weekly. -/
def fairRates : Service :=
  { id := 5, user_id := 1, name := "tent", availability_type := .limited,
    quantity_available := 3, is_active := true, base_price := 0,
    price_per_hour := some 1, price_per_day := some 2,
    price_per_week := some 3 }

/-- Tenant settings with auto-confirm on and threshold 1. -/
def confidentSettings : CalendarSettings :=
  { user_id := 1, business_hours_start := 0, business_hours_end := 86400,
    ai_booking_auto_confirm := true, ai_confidence_threshold := 1 }

/-- Initial state for the auto-confirmed studio admission. -/
def confidentDB : DB := initialDB [studio] [confidentSettings] 60

/-- The studio admission with confidence 2 against threshold 1 and no
conflicts: auto-confirmed. -/
def confidentRun : AdmissionResult × DB :=
  create_booking_from_ai confidentDB 1 studioReq 0 none (some 2)

/-- Request for the camera for half an hour. -/
def cameraReq : BookingData :=
  { title := some "rent", start_time := some (.dt 0),
    end_time := some (.dt 1800),
    customer := some { email := some "a@b.c" },
    services := some [{ id := some 3 }] }

/-- The camera admission (duration one half hour). -/
def cameraRun : AdmissionResult × DB :=
  create_booking_from_ai (initialDB [camera] [] 30) 1 cameraReq 0 none none

/-- A request whose start time is an unparseable string. -/
def badStartReq : BookingData :=
  { title := some "x", start_time := some .invalid,
    end_time := some (.dt 100),
    customer := some { email := some "a@b.c" },
    services := some [{ id := some 2 }] }

/-- Admission of `badStartReq` (with `now = 0`). -/
def badStartRun : AdmissionResult × DB :=
  create_booking_from_ai (initialDB [studio] [] 40) 1 badStartReq 0 none none

/-- A request for a fresh customer with only an unresolvable service. -/
def orphanCustomerReq : BookingData :=
  { title := some "x", start_time := some (.dt 0),
    end_time := some (.dt 100),
    customer := some { email := some "new@b.c" },
    services := some [{ id := some 99 }] }

/-- Admission of `orphanCustomerReq`. -/
def orphanCustomerRun : AdmissionResult × DB :=
  create_booking_from_ai (initialDB [studio] [] 50) 1 orphanCustomerReq 0
    none none

/-! ## Theorems -/

/-- C1 (counterexample): a sequence of two identical admissions on a `unique`
service, starting from an empty schedule, yields two overlapping reservations
whose parent bookings are both pending (detection never blocks admission and
absent settings disable auto-confirmation), so the claimed invariant over
pending/confirmed/in_progress reservations fails. -/
theorem pending_overlap_breaks_active_invariant :
    ¬ ClaimedScheduleInvariant kayakTwo := by
  intro h
  have h2 := (h kayak (by decide)).2 rfl
  have hid := h2
    { id := 11, user_id := 1, customer_id := 10, title := "trip",
      start_time := 0, end_time := 100, all_day := false, status := .pending,
      created_via := .ai_assistant, ai_session_id := none,
      ai_confidence_score := none } (by decide)
    { id := 12, user_id := 1, customer_id := 10, title := "trip",
      start_time := 0, end_time := 100, all_day := false, status := .pending,
      created_via := .ai_assistant, ai_session_id := none,
      ai_confidence_score := none } (by decide)
    (by decide) (by decide) (by decide) (by decide) (by decide) (by decide)
  exact absurd hid (by decide)

/-- C2 (code_bug evaluation): an admission whose customer is new and whose
services all fail to resolve reports failure, yet the customer row created
before service validation persists — the early `return` commits it because
`@transaction.atomic` only rolls back when an exception escapes the block. -/
theorem failed_admission_commits_customer :
    orphanCustomerRun.1.success = false ∧
    orphanCustomerRun.1.error = some "No valid services found" ∧
    (orphanCustomerRun.2.customers.map (fun c => (c.id, c.email))) =
      [(50, "new@b.c")] ∧
    orphanCustomerRun.2 ≠ initialDB [studio] [] 50 := by
  refine ⟨by decide, by decide, by decide, ?_⟩
  intro h
  have : orphanCustomerRun.2.customers.length = 0 := by rw [h]; decide
  exact absurd this (by decide)

/-- C3 (counterexample): on an over-booked `limited/unique` service the
calendar availability check reports `quantity_used = 2` and
`quantity_available = 0`, but total minus used is `-1`, so the reported
`quantity_available` does not equal total minus used. -/
theorem availability_reports_clamped_quantity :
    (AvailabilityService.check_service_availability kayakTwo kayak 0 100 1).quantity_used
        = some 2 ∧
    (AvailabilityService.check_service_availability kayakTwo kayak 0 100 1).quantity_available
        = some (.finite 0) ∧
    (AvailabilityService.check_service_availability kayakTwo kayak 0 100 1).quantity_total
        = some (.finite 1) ∧
    (1 : ℤ) - 2 ≠ 0 := by decide

/-- C4 (counterexample): with auto-confirm enabled, threshold 0, a supplied
confidence score of 0 and zero detected conflicts, the claim predicts a
`confirmed` booking, but the created booking is `pending`: the source tests
the score with Python truthiness (`confidence_score and ...`), so a supplied
score of 0 never auto-confirms. -/
theorem zero_confidence_not_auto_confirmed :
    permissiveSettings.ai_booking_auto_confirm = true ∧
    permissiveSettings.ai_confidence_threshold ≤ 0 ∧
    zeroConfidenceRun.1.success = true ∧
    zeroConfidenceRun.1.conflicts = [] ∧
    (zeroConfidenceRun.2.bookings.map (fun b => (b.id, b.status))) =
      [(21, .pending)] := by decide

/-- C5 (counterexample): a `unique` service also runs the quantity arithmetic
of `_detect_service_conflicts` (only `unlimited` is skipped), so a
`service_overlap` conflict is emitted although the policy is not `limited`. -/
theorem unique_service_emits_service_overlap :
    kayak.availability_type = .unique ∧
    ((detect_service_conflicts kayakOne 1 1 0 100 none).map
      (fun c => (c.ctype, c.severity))) = [(.service_overlap, .high)] := by
  decide

/-- C9 (counterexample): an admission whose start time is an unparseable
string succeeds with no field errors — `_parse_datetime` silently substitutes
`timezone.now()` instead of reporting a validation error. -/
theorem invalid_datetime_silently_accepted :
    badStartReq.start_time = some .invalid ∧
    badStartRun.1.success = true ∧
    badStartRun.1.field_errors = [] := by decide

/-- C8 (counterexample): a rate card with non-negative rates whose hourly rate
exceeds its daily rate makes `get_price_for_duration` strictly decrease from
duration 1 to duration 2, refuting monotonicity as claimed. -/
theorem price_not_monotone_for_inverted_rates :
    (∀ x, dvdPlayer.price_per_hour = some x → 0 ≤ x) ∧
    (∀ x, dvdPlayer.price_per_day = some x → 0 ≤ x) ∧
    (∀ x, dvdPlayer.price_per_week = some x → 0 ≤ x) ∧
    0 ≤ dvdPlayer.base_price ∧
    (1 : ℚ) ≤ 2 ∧
    get_price_for_duration dvdPlayer 2 < get_price_for_duration dvdPlayer 1 := by
  refine ⟨?_, ?_, ?_, by norm_num [dvdPlayer], by norm_num, ?_⟩
  · intro x hx
    rw [show dvdPlayer.price_per_hour = some 2 from rfl] at hx
    cases hx
    norm_num
  · intro x hx
    rw [show dvdPlayer.price_per_day = some 1 from rfl] at hx
    cases hx
    norm_num
  · intro x hx
    rw [show dvdPlayer.price_per_week = none from rfl] at hx
    cases hx
  · have h1 : get_price_for_duration dvdPlayer 1 = 2 := by
      rw [get_price_for_duration]
      norm_num [truthy, dvdPlayer]
    have h2 : get_price_for_duration dvdPlayer 2 = 1 := by
      rw [get_price_for_duration]
      norm_num [truthy, dvdPlayer]
    rw [h1, h2]
    norm_num

/-- C7 (counterexample): for a half-hour booking of a service with hourly rate
10, the admission path persists a unit price of 5 (hourly rate times hours),
while `get_price_for_duration` returns 10 (the flat hourly rate); the two
pricing rules disagree. -/
theorem admission_price_not_tiered :
    (cameraRun.2.booking_services.map (·.price_per_unit)) = [5] ∧
    get_price_for_duration camera (1 / 2) = 10 ∧ (5 : ℚ) ≠ 10 := by
  refine ⟨?_, ?_, by norm_num⟩
  · norm_num [cameraRun, create_booking_from_ai, initialDB, cameraReq,
      get_or_create_customer, pyLower, pyStrip, validate_services,
      parse_datetime, detect_conflicts, detect_service_conflicts,
      detect_business_hours_conflicts, detect_availability_conflicts,
      DB.getService, DB.getSettings, DB.overlappingBookings,
      DB.bookingHasService, DB.firstBookingService, DB.totalQuantityUsed,
      create_booking_services, ai_booking_price, truthy, camera, missingField,
      notExcluded, BookingStatus.isActive, nameIContains, timeOfDay, dayStart,
      admissionAutoConfirm, admissionBooking, admissionLogs, admissionCommit]
  · rw [get_price_for_duration]
    norm_num [truthy, camera]

/-! ### List accounting lemmas -/

theorem list_any_congr {α : Type} {p q : α → Bool} {l : List α}
    (h : ∀ x ∈ l, p x = q x) : l.any p = l.any q := by
  induction l with
  | nil => rfl
  | cons a t ih =>
    simp only [List.any_cons]
    rw [h a (by simp), ih (fun x hx => h x (by simp [hx]))]

theorem list_sum_map_add {α : Type} (l : List α) (f g : α → ℤ) :
    (l.map (fun x => f x + g x)).sum = (l.map f).sum + (l.map g).sum := by
  induction l with
  | nil => simp
  | cons a t ih => simp only [List.map_cons, List.sum_cons, ih]; ring

theorem beq_nat_comm (a b : ℕ) : (a == b) = (b == a) := by
  by_cases h : a = b
  · simp [h]
  · simp [h, Ne.symm h]

/-- Summing a one-point function over a filtered booking list with distinct
ids picks out at most the single booking with the given id. -/
theorem sum_if_single (bks : List Booking) (P : Booking → Bool) (k : ℕ)
    (v : ℤ) (hn : (bks.map (·.id)).Nodup) :
    ((bks.filter P).map (fun b => if b.id == k then v else 0)).sum =
    if bks.any (fun b => b.id == k && P b) then v else 0 := by
  induction bks with
  | nil => simp
  | cons b rest ih =>
    simp only [List.map_cons, List.nodup_cons] at hn
    rw [List.filter_cons, List.any_cons]
    by_cases hPb : P b = true
    · rw [if_pos hPb, List.map_cons, List.sum_cons, ih hn.2]
      by_cases hbk : b.id = k
      · have hrest : rest.any (fun b' => b'.id == k && P b') = false := by
          rw [List.any_eq_false]
          intro b' hb'
          have hne : b'.id ≠ k := by
            intro hk
            apply hn.1
            rw [hbk, ← hk]
            exact List.mem_map.2 ⟨b', hb', rfl⟩
          simp [hne]
        simp [hbk, hPb, hrest]
      · simp [hbk, hPb]
    · rw [if_neg hPb, ih hn.2]
      simp [hPb]

/-- Double-counting exchange: the per-booking aggregation of booking-service
quantities (as in the calendar availability check) equals the direct row sum
(as in the catalog availability check and the specification formula),
provided booking ids are distinct and the two booking predicates agree on
every booking that has a row on the service. -/
theorem rowsum_exchange (bks : List Booking) (sid : ℕ) (P C : Booking → Bool)
    (hn : (bks.map (·.id)).Nodup) :
    ∀ rows : List BookingServiceRec,
      (∀ b ∈ bks, ∀ r ∈ rows, r.booking_id = b.id → r.service_id = sid →
        P b = C b) →
      ((bks.filter P).map (fun b =>
        ((rows.filter (fun r =>
          r.booking_id == b.id && r.service_id == sid)).map (·.quantity)).sum)).sum
      = ((rows.filter (fun r => r.service_id == sid &&
          bks.any (fun b => b.id == r.booking_id && C b))).map (·.quantity)).sum := by
  intro rows
  induction rows with
  | nil => simp
  | cons r rows' ih =>
    intro h
    have hsplit : ∀ b : Booking,
        (((r :: rows').filter (fun r' =>
          r'.booking_id == b.id && r'.service_id == sid)).map (·.quantity)).sum =
        (if r.booking_id == b.id && r.service_id == sid then r.quantity else 0) +
        ((rows'.filter (fun r' =>
          r'.booking_id == b.id && r'.service_id == sid)).map (·.quantity)).sum := by
      intro b
      by_cases hc : (r.booking_id == b.id && r.service_id == sid) = true
      · simp [List.filter_cons, hc]
      · simp [List.filter_cons, hc, Bool.eq_false_iff.2 hc]
    rw [List.map_congr_left (fun b _ => hsplit b), list_sum_map_add]
    have htail := ih (fun b hb r' hr' => h b hb r' (by simp [hr']))
    rw [htail]
    by_cases hs : r.service_id = sid
    · have hone : ((bks.filter P).map (fun b =>
          if r.booking_id == b.id && r.service_id == sid then r.quantity else 0)).sum =
          if bks.any (fun b => b.id == r.booking_id && P b) then r.quantity else 0 := by
        have : ∀ b : Booking,
            (if r.booking_id == b.id && r.service_id == sid then r.quantity else 0) =
            (if b.id == r.booking_id then r.quantity else 0) := by
          intro b
          rw [beq_nat_comm r.booking_id b.id]
          simp [hs]
        rw [List.map_congr_left (fun b _ => this b)]
        exact sum_if_single bks P r.booking_id r.quantity hn
      have hanyPC : bks.any (fun b => b.id == r.booking_id && P b) =
          bks.any (fun b => b.id == r.booking_id && C b) := by
        apply list_any_congr
        intro b hb
        by_cases hid : b.id = r.booking_id
        · have : P b = C b := h b hb r (by simp) hid.symm hs
          simp [this]
        · have : (b.id == r.booking_id) = false := by simp [hid]
          rw [this]
          simp
      rw [hone, hanyPC]
      by_cases hany : bks.any (fun b => b.id == r.booking_id && C b) = true
      · simp only [List.filter_cons, hs, hany, Bool.and_true, beq_self_eq_true,
          if_true, List.map_cons, List.sum_cons, if_pos]
      · simp only [Bool.not_eq_true] at hany
        simp [List.filter_cons, hs, hany]
    · have hzero : ((bks.filter P).map (fun b =>
          if r.booking_id == b.id && r.service_id == sid then r.quantity else 0)).sum = 0 := by
        have : ∀ b : Booking,
            (if r.booking_id == b.id && r.service_id == sid then r.quantity else 0) = 0 := by
          intro b
          simp [hs]
        rw [List.map_congr_left (fun b _ => this b)]
        simp
      rw [hzero]
      simp [List.filter_cons, hs]

/-- C3 (amended): for an active, non-`unlimited` service, both availability
checks compute the used quantity as the specification's row sum over active,
window-overlapping reservations (strict half-open rule); the calendar variant
reports `quantity_used` as that sum, decides `available` on the unclamped
difference but reports `quantity_available` clamped at zero, while the
catalog variant reports the unclamped difference and compares it with the
requested quantity.  Hypotheses: the service resolves to itself, booking ids
are distinct, and the service's reservation rows belong to the tenant. -/
theorem availability_quantities_characterization
    (db : DB) (uid : ℕ) (svc : Service) (s e : ℤ) (q : ℤ)
    (hact : svc.is_active = true) (htype : svc.availability_type ≠ .unlimited)
    (hsvc : db.getService uid svc.id = some svc)
    (hn : (db.bookings.map (·.id)).Nodup)
    (hu : ∀ r ∈ db.booking_services, r.service_id = svc.id →
      ∀ b ∈ db.bookings, b.id = r.booking_id → b.user_id = uid) :
    (AvailabilityService.check_service_availability db svc s e uid).quantity_used
      = some (rowUsage db svc.id s e) ∧
    (AvailabilityService.check_service_availability db svc s e uid).available
      = decide (0 < svc.quantity_available - rowUsage db svc.id s e) ∧
    (AvailabilityService.check_service_availability db svc s e uid).quantity_available
      = some (.finite (max 0 (svc.quantity_available - rowUsage db svc.id s e))) ∧
    (ServiceCatalogService.check_service_availability db uid svc.id s e q).available_quantity
      = some (svc.quantity_available - rowUsage db svc.id s e) ∧
    (ServiceCatalogService.check_service_availability db uid svc.id s e q).available
      = decide (q ≤ svc.quantity_available - rowUsage db svc.id s e) := by
  have hPC : ∀ b ∈ db.bookings, ∀ r ∈ db.booking_services,
      r.booking_id = b.id → r.service_id = svc.id →
      (fun b => b.user_id == uid && db.bookingHasService b svc.id &&
        decide (b.start_time < e) && decide (s < b.end_time) &&
        b.status.isActive) b =
      (fun b => decide (b.start_time < e) && decide (s < b.end_time) &&
        b.status.isActive) b := by
    intro b hb r hr hrb hrs
    have huser : (b.user_id == uid) = true := by
      simp [hu r hr hrs b hb hrb.symm]
    have hhas : db.bookingHasService b svc.id = true := by
      simp only [DB.bookingHasService, List.any_eq_true]
      exact ⟨r, hr, by simp [hrb, hrs]⟩
    simp only [huser, hhas, Bool.true_and]
  have hused := rowsum_exchange db.bookings svc.id
    (fun b => b.user_id == uid && db.bookingHasService b svc.id &&
      decide (b.start_time < e) && decide (s < b.end_time) &&
      b.status.isActive)
    (fun b => decide (b.start_time < e) && decide (s < b.end_time) &&
      b.status.isActive)
    hn db.booking_services hPC
  have hused' : ((db.bookings.filter (fun b =>
      b.user_id == uid && db.bookingHasService b svc.id &&
      decide (b.start_time < e) && decide (s < b.end_time) &&
      b.status.isActive)).map (fun b =>
        ((db.booking_services.filter (fun r =>
          r.booking_id == b.id && r.service_id == svc.id)).map
          (·.quantity)).sum)).sum = rowUsage db svc.id s e := by
    rw [hused, rowUsage]
    simp only [Bool.and_assoc]
  refine ⟨?_, ?_, ?_, ?_, ?_⟩
  · simp only [AvailabilityService.check_service_availability, hact,
      Bool.not_true, Bool.false_eq_true, if_false]
    rw [if_neg htype]
    simp only [hused']
  · simp only [AvailabilityService.check_service_availability, hact,
      Bool.not_true, Bool.false_eq_true, if_false]
    rw [if_neg htype]
    simp only [hused']
  · simp only [AvailabilityService.check_service_availability, hact,
      Bool.not_true, Bool.false_eq_true, if_false]
    rw [if_neg htype]
    simp only [hused']
  · simp only [ServiceCatalogService.check_service_availability, hsvc, hact,
      Bool.not_true, Bool.false_eq_true, if_false]
    rw [if_neg htype]
    have hbooked : ((db.booking_services.filter (fun r =>
        r.service_id == svc.id && db.bookings.any (fun b =>
          b.id == r.booking_id && decide (b.start_time < e) &&
          decide (s < b.end_time) && b.status.isActive))).map
        (·.quantity)).sum = rowUsage db svc.id s e := by
      rw [rowUsage]
    simp only [hbooked]
    by_cases hq : q ≤ svc.quantity_available - rowUsage db svc.id s e
    · simp [hq]
    · simp [hq]
  · simp only [ServiceCatalogService.check_service_availability, hsvc, hact,
      Bool.not_true, Bool.false_eq_true, if_false]
    rw [if_neg htype]
    have hbooked : ((db.booking_services.filter (fun r =>
        r.service_id == svc.id && db.bookings.any (fun b =>
          b.id == r.booking_id && decide (b.start_time < e) &&
          decide (s < b.end_time) && b.status.isActive))).map
        (·.quantity)).sum = rowUsage db svc.id s e := by
      rw [rowUsage]
    simp only [hbooked]
    by_cases hq : q ≤ svc.quantity_available - rowUsage db svc.id s e
    · simp [hq]
    · simp [hq]

/-- C3 (witness): the characterization applied to the two-admission kayak
state with window `[0, 100)` and requested quantity 1. -/
theorem availability_quantities_characterization_witness :
    (AvailabilityService.check_service_availability kayakTwo kayak 0 100 1).quantity_used
      = some (rowUsage kayakTwo kayak.id 0 100) ∧
    (AvailabilityService.check_service_availability kayakTwo kayak 0 100 1).available
      = decide (0 < kayak.quantity_available - rowUsage kayakTwo kayak.id 0 100) ∧
    (AvailabilityService.check_service_availability kayakTwo kayak 0 100 1).quantity_available
      = some (.finite (max 0 (kayak.quantity_available - rowUsage kayakTwo kayak.id 0 100))) ∧
    (ServiceCatalogService.check_service_availability kayakTwo 1 kayak.id 0 100 1).available_quantity
      = some (kayak.quantity_available - rowUsage kayakTwo kayak.id 0 100) ∧
    (ServiceCatalogService.check_service_availability kayakTwo 1 kayak.id 0 100 1).available
      = decide (1 ≤ kayak.quantity_available - rowUsage kayakTwo kayak.id 0 100) :=
  availability_quantities_characterization kayakTwo 1 kayak 0 100 1
    (by decide) (by decide) (by decide) (by decide) (by decide)

/-- C10: for an active, non-`unlimited` service, the calendar availability
check never reports a negative `quantity_available`: it reports the
difference of total and used clamped at zero, and whenever the used sum `u`
it reports meets or exceeds the total quantity the result is unavailable
with `quantity_available = 0` (while `quantity_used` still reports `u`). -/
theorem quantity_available_clamped_nonneg (db : DB) (svc : Service)
    (s e : ℤ) (uid : ℕ) (u : ℤ)
    (hact : svc.is_active = true) (htype : svc.availability_type ≠ .unlimited)
    (hused : (AvailabilityService.check_service_availability db svc s e uid).quantity_used = some u) :
    (AvailabilityService.check_service_availability db svc s e uid).quantity_available
      = some (.finite (max 0 (svc.quantity_available - u))) ∧
    0 ≤ max 0 (svc.quantity_available - u) ∧
    (svc.quantity_available ≤ u →
      (AvailabilityService.check_service_availability db svc s e uid).available = false ∧
      max 0 (svc.quantity_available - u) = 0) := by
  simp only [AvailabilityService.check_service_availability, hact,
    Bool.not_true, Bool.false_eq_true, if_false] at hused ⊢
  rw [if_neg htype] at hused ⊢
  simp only [Option.some.injEq] at hused
  refine ⟨by rw [hused], le_max_left 0 _, ?_⟩
  intro hover
  rw [← hused] at hover
  constructor
  · simp only [decide_eq_false_iff_not]
    omega
  · omega

/-- C10 (witness): the clamping behaviour on the over-booked kayak state,
where the used sum is 2 against a total of 1. -/
theorem quantity_available_clamped_nonneg_witness :
    (AvailabilityService.check_service_availability kayakTwo kayak 0 100 1).quantity_available
      = some (.finite (max 0 (kayak.quantity_available - 2))) ∧
    0 ≤ max 0 (kayak.quantity_available - 2) ∧
    (AvailabilityService.check_service_availability kayakTwo kayak 0 100 1).available = false ∧
    max 0 (kayak.quantity_available - 2) = 0 := by
  have h := quantity_available_clamped_nonneg kayakTwo kayak 0 100 1 2
    (by decide) (by decide) (by decide)
  exact ⟨h.1, h.2.1, (h.2.2 (by decide)).1, (h.2.2 (by decide)).2⟩

/-! ### Shape lemmas for conflict detection -/

theorem mem_detect_service_conflicts {db : DB} {uid sid : ℕ} {s e : ℤ}
    {excl : Option ℕ} {c : Conflict}
    (hc : c ∈ detect_service_conflicts db uid sid s e excl) :
    c.ctype = .service_overlap ∧ c.severity = .high ∧
    c.service_id = some sid := by
  rw [detect_service_conflicts] at hc
  cases hsvc : db.getService uid sid with
  | none => rw [hsvc] at hc; simp at hc
  | some svc =>
    simp only [hsvc] at hc
    by_cases hul : svc.availability_type = .unlimited
    · rw [if_pos hul] at hc; simp at hc
    · rw [if_neg hul] at hc
      by_cases hcond : svc.quantity_available <
          db.totalQuantityUsed (db.overlappingBookings uid sid s e excl) sid + 1
      · rw [if_pos hcond] at hc
        obtain ⟨b, _, hb⟩ := List.mem_map.1 hc
        rw [← hb]
        exact ⟨rfl, rfl, rfl⟩
      · rw [if_neg hcond] at hc; simp at hc

theorem mem_detect_business_hours {db : DB} {uid : ℕ} {s e : ℤ} {c : Conflict}
    (hc : c ∈ detect_business_hours_conflicts db uid s e) :
    c.ctype = .business_hours ∧ c.severity = .medium := by
  rw [detect_business_hours_conflicts] at hc
  cases hst : db.getSettings uid with
  | none => rw [hst] at hc; simp at hc
  | some st =>
    simp only [hst] at hc
    by_cases hcond : timeOfDay s < st.business_hours_start ∨
        st.business_hours_end < timeOfDay e
    · rw [if_pos hcond] at hc
      simp only [List.mem_singleton] at hc
      rw [hc]
      exact ⟨rfl, rfl⟩
    · rw [if_neg hcond] at hc; simp at hc

theorem mem_detect_availability_conflicts {db : DB} {uid : ℕ} {sids : List ℕ}
    {s e : ℤ} {excl : Option ℕ} {c : Conflict}
    (hc : c ∈ detect_availability_conflicts db uid sids s e excl) :
    c.ctype = .availability_limit ∧ c.severity = .critical ∧
    ∃ sid ∈ sids, ∃ svc : Service, db.getService uid sid = some svc ∧
      svc.availability_type = .unique ∧ c.service_id = some sid ∧
      db.overlappingBookings uid sid s e excl ≠ [] := by
  rw [detect_availability_conflicts] at hc
  obtain ⟨sid, hsid, hin⟩ := List.mem_flatMap.1 hc
  cases hsvc : db.getService uid sid with
  | none => rw [hsvc] at hin; simp at hin
  | some svc =>
    simp only [hsvc] at hin
    by_cases huq : svc.availability_type = .unique
    · rw [if_pos huq] at hin
      by_cases hemp : (db.overlappingBookings uid sid s e excl).isEmpty = true
      · rw [if_pos hemp] at hin; simp at hin
      · rw [if_neg hemp] at hin
        simp only [List.mem_singleton] at hin
        rw [hin]
        refine ⟨rfl, rfl, sid, hsid, svc, hsvc, huq, rfl, ?_⟩
        intro h
        rw [h] at hemp
        exact hemp rfl
    · rw [if_neg huq] at hin; simp at hin

theorem availability_conflict_of_overlap {db : DB} {uid : ℕ} {sids : List ℕ}
    {s e : ℤ} {excl : Option ℕ} {sid : ℕ} {svc : Service}
    (hmem : sid ∈ sids) (hsvc : db.getService uid sid = some svc)
    (huniq : svc.availability_type = .unique)
    (hne : db.overlappingBookings uid sid s e excl ≠ []) :
    ∃ c ∈ detect_availability_conflicts db uid sids s e excl,
      c.ctype = .availability_limit ∧ c.severity = .critical ∧
      c.service_id = some sid := by
  rw [detect_availability_conflicts]
  refine ⟨{ ctype := .availability_limit, severity := .critical,
            service_id := some sid,
            conflicting_bookings :=
              (db.overlappingBookings uid sid s e excl).map (·.id) },
          ?_, rfl, rfl, rfl⟩
  rw [List.mem_flatMap]
  refine ⟨sid, hmem, ?_⟩
  simp only [hsvc]
  rw [if_pos huniq]
  rw [if_neg (by simpa [List.isEmpty_iff] using hne)]
  simp

/-- C6: for every requested `unique` service, `detect_conflicts` emits an
`availability_limit` conflict for it iff at least one existing booking with
an active status (other than the excluded one) overlaps the window under the
strict half-open rule — presence of any overlap suffices, no quantity
arithmetic — and every `availability_limit` conflict has severity
`critical`. -/
theorem availability_limit_emission_iff (db : DB) (uid : ℕ) (s e : ℤ)
    (sids : List ℕ) (excl : Option ℕ) (sid : ℕ) (svc : Service)
    (hmem : sid ∈ sids) (hsvc : db.getService uid sid = some svc)
    (huniq : svc.availability_type = .unique) :
    ((∃ c ∈ detect_conflicts db uid s e sids excl,
        c.ctype = .availability_limit ∧ c.service_id = some sid) ↔
      ∃ b ∈ db.bookings, b.user_id = uid ∧
        db.bookingHasService b sid = true ∧ b.start_time < e ∧
        s < b.end_time ∧ b.status.isActive = true ∧
        notExcluded excl b = true) ∧
    (∀ c ∈ detect_conflicts db uid s e sids excl,
      c.ctype = .availability_limit → c.severity = .critical) := by
  have hov : ∀ b : Booking, b ∈ db.overlappingBookings uid sid s e excl ↔
      (b ∈ db.bookings ∧ (b.user_id = uid ∧
        db.bookingHasService b sid = true ∧ b.start_time < e ∧
        s < b.end_time ∧ b.status.isActive = true ∧
        notExcluded excl b = true)) := by
    intro b
    rw [DB.overlappingBookings, List.mem_filter]
    simp [and_assoc]
  constructor
  · constructor
    · rintro ⟨c, hc, hal, hsid⟩
      rw [detect_conflicts] at hc
      rcases List.mem_append.1 hc with hc' | hc''
      · rcases List.mem_append.1 hc' with hcs | hcb
        · obtain ⟨sid', _, hin⟩ := List.mem_flatMap.1 hcs
          have := (mem_detect_service_conflicts hin).1
          rw [this] at hal
          exact absurd hal (by simp)
        · have := (mem_detect_business_hours hcb).1
          rw [this] at hal
          exact absurd hal (by simp)
      · obtain ⟨_, _, sid', hsid', svc', hsvc', _, hcid, hne⟩ :=
          mem_detect_availability_conflicts hc''
        rw [hcid] at hsid
        have : sid' = sid := by injection hsid
        rw [this] at hne
        obtain ⟨b, hb⟩ := List.exists_mem_of_ne_nil _ hne
        obtain ⟨hbm, hrest⟩ := (hov b).1 hb
        exact ⟨b, hbm, hrest⟩
    · rintro ⟨b, hbm, hrest⟩
      have hne : db.overlappingBookings uid sid s e excl ≠ [] := by
        intro hnil
        have : b ∈ db.overlappingBookings uid sid s e excl :=
          (hov b).2 ⟨hbm, hrest⟩
        rw [hnil] at this
        simp at this
      obtain ⟨c, hc, h1, _, h3⟩ :=
        availability_conflict_of_overlap hmem hsvc huniq hne
      refine ⟨c, ?_, h1, h3⟩
      rw [detect_conflicts]
      exact List.mem_append.2 (Or.inr hc)
  · intro c hc hal
    rw [detect_conflicts] at hc
    rcases List.mem_append.1 hc with hc' | hc''
    · rcases List.mem_append.1 hc' with hcs | hcb
      · obtain ⟨sid', _, hin⟩ := List.mem_flatMap.1 hcs
        have := (mem_detect_service_conflicts hin).1
        rw [this] at hal
        exact absurd hal (by simp)
      · have := (mem_detect_business_hours hcb).1
        rw [this] at hal
        exact absurd hal (by simp)
    · exact (mem_detect_availability_conflicts hc'').2.1

/-- C6 (witness): the emission criterion applied to the one-admission kayak
state: the pending kayak booking on `[0, 100)` overlaps the window
`[50, 150)`, so one critical `availability_limit` conflict is emitted. -/
theorem availability_limit_emission_iff_witness :
    ((∃ c ∈ detect_conflicts kayakOne 1 50 150 [1] none,
        c.ctype = .availability_limit ∧ c.service_id = some 1) ↔
      ∃ b ∈ kayakOne.bookings, b.user_id = 1 ∧
        kayakOne.bookingHasService b 1 = true ∧ b.start_time < 150 ∧
        50 < b.end_time ∧ b.status.isActive = true ∧
        notExcluded none b = true) ∧
    (∀ c ∈ detect_conflicts kayakOne 1 50 150 [1] none,
      c.ctype = .availability_limit → c.severity = .critical) :=
  availability_limit_emission_iff kayakOne 1 50 150 [1] none 1 kayak
    (by decide) (by decide) (by decide)

/-- C5 (amended): for a resolvable requested service, `service_overlap`
conflicts are emitted iff the service's policy is not `unlimited` (both
`limited` and `unique` run the quantity arithmetic), the summed quantity of
overlapping active bookings (excluding `exclude_booking_id` when given) plus
the default requested quantity 1 exceeds the total quantity, and at least one
overlapping booking exists; in that case exactly one conflict is emitted per
overlapping active booking (same order), each of severity `high` and type
`service_overlap`. -/
theorem service_overlap_emission_characterization
    (db : DB) (uid sid : ℕ) (s e : ℤ) (excl : Option ℕ) (svc : Service)
    (hsvc : db.getService uid sid = some svc) :
    ((detect_service_conflicts db uid sid s e excl ≠ []) ↔
      (svc.availability_type ≠ .unlimited ∧
        svc.quantity_available <
          db.totalQuantityUsed (db.overlappingBookings uid sid s e excl) sid + 1 ∧
        db.overlappingBookings uid sid s e excl ≠ [])) ∧
    (svc.availability_type ≠ .unlimited →
      svc.quantity_available <
        db.totalQuantityUsed (db.overlappingBookings uid sid s e excl) sid + 1 →
      ((detect_service_conflicts db uid sid s e excl).map
          (fun c => c.conflicting_booking_id)) =
        (db.overlappingBookings uid sid s e excl).map (fun b => some b.id)) ∧
    (∀ c ∈ detect_service_conflicts db uid sid s e excl,
      c.ctype = .service_overlap ∧ c.severity = .high ∧
      c.service_id = some sid) := by
  refine ⟨?_, ?_, fun c hc => mem_detect_service_conflicts hc⟩
  · simp only [detect_service_conflicts, hsvc]
    by_cases hul : svc.availability_type = .unlimited
    · rw [if_pos hul]
      simp [hul]
    · rw [if_neg hul]
      by_cases hcond : svc.quantity_available <
          db.totalQuantityUsed (db.overlappingBookings uid sid s e excl) sid + 1
      · rw [if_pos hcond]
        simp only [ne_eq, List.map_eq_nil_iff]
        constructor
        · intro hne
          exact ⟨hul, hcond, hne⟩
        · intro h
          exact h.2.2
      · rw [if_neg hcond]
        simp only [ne_eq, not_true_eq_false]
        constructor
        · intro h
          exact h.elim
        · rintro ⟨_, hc, _⟩
          exact absurd hc hcond
  · intro hul hcond
    simp only [detect_service_conflicts, hsvc]
    rw [if_neg hul, if_pos hcond]
    rw [List.map_map]
    rfl

/-- C5 (witness): the characterization applied to the one-admission kayak
state (a `unique` service with total 1 and one overlapping pending booking):
the quantity condition 1 < 1 + 1 holds, so exactly one high `service_overlap`
conflict is emitted for the single overlapping booking. -/
theorem service_overlap_emission_characterization_witness :
    ((detect_service_conflicts kayakOne 1 1 0 100 none ≠ []) ↔
      (kayak.availability_type ≠ .unlimited ∧
        kayak.quantity_available <
          kayakOne.totalQuantityUsed (kayakOne.overlappingBookings 1 1 0 100 none) 1 + 1 ∧
        kayakOne.overlappingBookings 1 1 0 100 none ≠ [])) ∧
    (kayak.availability_type ≠ .unlimited →
      kayak.quantity_available <
        kayakOne.totalQuantityUsed (kayakOne.overlappingBookings 1 1 0 100 none) 1 + 1 →
      ((detect_service_conflicts kayakOne 1 1 0 100 none).map
          (fun c => c.conflicting_booking_id)) =
        (kayakOne.overlappingBookings 1 1 0 100 none).map (fun b => some b.id)) ∧
    (∀ c ∈ detect_service_conflicts kayakOne 1 1 0 100 none,
      c.ctype = .service_overlap ∧ c.severity = .high ∧
      c.service_id = some 1) :=
  service_overlap_emission_characterization kayakOne 1 1 0 100 none kayak
    (by decide)

/-- Shape of a successful admission: every reported success arises from the
success branch of `create_booking_from_ai`, with all intermediate values
named.  (`db1` is the state after customer resolution, which may already
contain a newly created customer row.) -/
theorem create_booking_success_shape (db : DB) (uid : ℕ) (bd : BookingData)
    (now : ℤ) (sess : Option ℕ) (conf : Option ℚ)
    (hs : (create_booking_from_ai db uid bd now sess conf).1.success = true) :
    ∃ (title : String) (stv etv : DTValue) (cd : CustomerData)
      (sds : List ServiceRefData) (customer : Customer) (db1 : DB)
      (services : List Service) (start_time end_time : ℤ)
      (conflicts : List Conflict) (auto_confirm : Bool) (booking : Booking)
      (rows : List BookingServiceRec) (total : ℚ),
      bd.title = some title ∧ bd.start_time = some stv ∧
      bd.end_time = some etv ∧ bd.customer = some cd ∧
      bd.services = some sds ∧
      customer = (get_or_create_customer db uid cd).1 ∧
      db1 = (get_or_create_customer db uid cd).2 ∧
      services = validate_services db1 uid sds ∧ services ≠ [] ∧
      start_time = parse_datetime stv now ∧
      end_time = parse_datetime etv now ∧ start_time < end_time ∧
      conflicts = detect_conflicts db1 uid start_time end_time
        (services.map (·.id)) none ∧
      auto_confirm = admissionAutoConfirm db1 uid conf conflicts ∧
      booking = admissionBooking db1 uid customer title start_time end_time
        (bd.all_day.getD false) auto_confirm sess conf ∧
      create_booking_services booking.id
        (((end_time - start_time : ℤ) : ℚ) / 3600) services [] 0
        = some (rows, total) ∧
      create_booking_from_ai db uid bd now sess conf =
        ({ success := true
           booking_id := some booking.id
           conflicts := conflicts
           auto_confirmed := auto_confirm
           total_price := total },
         admissionCommit db1 booking rows
           (admissionLogs uid conflicts booking.id)) := by
  cases ht : bd.title with
  | none => simp [create_booking_from_ai, ht, missingField] at hs
  | some title =>
  cases hstv : bd.start_time with
  | none => simp [create_booking_from_ai, ht, hstv, missingField] at hs
  | some stv =>
  cases hetv : bd.end_time with
  | none => simp [create_booking_from_ai, ht, hstv, hetv, missingField] at hs
  | some etv =>
  cases hcd : bd.customer with
  | none => simp [create_booking_from_ai, ht, hstv, hetv, hcd, missingField] at hs
  | some cd =>
  cases hsds : bd.services with
  | none =>
    simp [create_booking_from_ai, ht, hstv, hetv, hcd, hsds, missingField] at hs
  | some sds =>
    rw [create_booking_from_ai] at hs
    simp only [ht, hstv, hetv, hcd, hsds] at hs
    by_cases hemp :
        (validate_services (get_or_create_customer db uid cd).2 uid sds).isEmpty = true
    · rw [if_pos hemp] at hs
      simp at hs
    · rw [if_neg hemp] at hs
      by_cases hle : parse_datetime etv now ≤ parse_datetime stv now
      · rw [if_pos hle] at hs
        simp at hs
      · rw [if_neg hle] at hs
        cases hrt : create_booking_services
            (admissionBooking (get_or_create_customer db uid cd).2 uid
              (get_or_create_customer db uid cd).1 title
              (parse_datetime stv now) (parse_datetime etv now)
              (bd.all_day.getD false)
              (admissionAutoConfirm (get_or_create_customer db uid cd).2 uid
                conf
                (detect_conflicts (get_or_create_customer db uid cd).2 uid
                  (parse_datetime stv now) (parse_datetime etv now)
                  ((validate_services (get_or_create_customer db uid cd).2 uid
                    sds).map (·.id)) none))
              sess conf).id
            (((parse_datetime etv now - parse_datetime stv now : ℤ) : ℚ) / 3600)
            (validate_services (get_or_create_customer db uid cd).2 uid sds)
            [] 0 with
        | none => rw [hrt] at hs; simp at hs
        | some rt =>
          refine ⟨title, stv, etv, cd, sds,
            (get_or_create_customer db uid cd).1,
            (get_or_create_customer db uid cd).2,
            validate_services (get_or_create_customer db uid cd).2 uid sds,
            parse_datetime stv now, parse_datetime etv now,
            detect_conflicts (get_or_create_customer db uid cd).2 uid
              (parse_datetime stv now) (parse_datetime etv now)
              ((validate_services (get_or_create_customer db uid cd).2 uid
                sds).map (·.id)) none,
            _, _, rt.1, rt.2,
            rfl, rfl, rfl, rfl, rfl, rfl, rfl, rfl, ?_, rfl, rfl,
            lt_of_not_le hle, rfl, rfl, rfl, ?_, ?_⟩
          · intro h
            rw [h] at hemp
            exact hemp rfl
          · rw [hrt]
          · rw [create_booking_from_ai]
            simp only [ht, hstv, hetv, hcd, hsds]
            rw [if_neg hemp, if_neg hle, hrt]

/-- Customer resolution only touches the customer table and the id counter. -/
theorem get_or_create_customer_frame (db : DB) (uid : ℕ) (cd : CustomerData) :
    (get_or_create_customer db uid cd).2.services = db.services ∧
    (get_or_create_customer db uid cd).2.settings = db.settings ∧
    (get_or_create_customer db uid cd).2.bookings = db.bookings ∧
    (get_or_create_customer db uid cd).2.booking_services = db.booking_services ∧
    (get_or_create_customer db uid cd).2.conflict_logs = db.conflict_logs ∧
    db.next_id ≤ (get_or_create_customer db uid cd).2.next_id ∧
    ((get_or_create_customer db uid cd).2.customers = db.customers ∨
      (get_or_create_customer db uid cd).2.customers =
        db.customers ++ [(get_or_create_customer db uid cd).1]) := by
  rw [get_or_create_customer]
  by_cases he : pyLower (pyStrip (cd.email.getD "")) ≠ ""
  · rw [if_pos he]
    cases hf : db.customers.find? (fun c =>
        c.user_id == uid && c.email == pyLower (pyStrip (cd.email.getD ""))) with
    | none => simp
    | some c => simp
  · rw [if_neg he]
    simp

/-- Unpacking of the auto-confirmation boolean. -/
theorem admissionAutoConfirm_iff (db1 : DB) (uid : ℕ) (conf : Option ℚ)
    (conflicts : List Conflict) :
    admissionAutoConfirm db1 uid conf conflicts = true ↔
    ∃ st, db1.getSettings uid = some st ∧
      st.ai_booking_auto_confirm = true ∧
      (∃ cs : ℚ, conf = some cs ∧ cs ≠ 0 ∧ st.ai_confidence_threshold ≤ cs) ∧
      ∀ c ∈ conflicts, c.severity ≠ .high ∧ c.severity ≠ .critical := by
  rw [admissionAutoConfirm]
  cases hst : db1.getSettings uid with
  | none => simp
  | some st =>
    constructor
    · intro h
      simp only [Bool.and_eq_true] at h
      obtain ⟨⟨⟨hflag, htr⟩, hdec⟩, hany⟩ := h
      cases hconf : conf with
      | none => rw [hconf] at htr; simp [truthy] at htr
      | some cs =>
        rw [hconf] at htr hdec
        refine ⟨st, rfl, hflag, ⟨cs, rfl, ?_, ?_⟩, ?_⟩
        · simpa [truthy] using htr
        · simpa using hdec
        · intro c hc
          simp only [Bool.not_eq_true', List.any_eq_false] at hany
          have := hany c hc
          constructor
          · intro hcs
            rw [hcs] at this
            simp at this
          · intro hcs
            rw [hcs] at this
            simp at this
    · rintro ⟨st', hst', hflag, ⟨cs, hcs, hne, hth⟩, hsev⟩
      have hstst : st' = st := by
        injection hst' with hinj
        exact hinj.symm
      subst hstst
      rw [hcs]
      simp only [Bool.and_eq_true]
      refine ⟨⟨⟨hflag, by simpa [truthy] using hne⟩, by simpa using hth⟩, ?_⟩
      simp only [Bool.not_eq_true', List.any_eq_false]
      intro c hc
      have := hsev c hc
      cases hsv : c.severity <;> simp_all

/-- The booking-service creation loop, when it succeeds, appends exactly one
row per service, priced by `ai_booking_price`, and totals their prices. -/
theorem create_booking_services_spec (bid : ℕ) (dur : ℚ) :
    ∀ (svcs : List Service) (acc : List BookingServiceRec) (tot : ℚ)
      (rows : List BookingServiceRec) (total : ℚ),
      create_booking_services bid dur svcs acc tot = some (rows, total) →
      rows = acc ++ svcs.map (fun svc =>
        { booking_id := bid, service_id := svc.id, quantity := 1,
          price_per_unit := ai_booking_price svc dur,
          total_price := ai_booking_price svc dur,
          service_status := .reserved }) ∧
      total = tot + (svcs.map (fun svc => ai_booking_price svc dur)).sum
  | [], acc, tot, rows, total => by
    intro h
    rw [create_booking_services] at h
    simp only [Option.some.injEq, Prod.mk.injEq] at h
    simp [← h.1, ← h.2]
  | svc :: rest, acc, tot, rows, total => by
    intro h
    rw [create_booking_services] at h
    by_cases hdup : acc.any (fun r => r.service_id == svc.id) = true
    · rw [if_pos hdup] at h
      simp at h
    · rw [if_neg hdup] at h
      have ih := create_booking_services_spec bid dur rest _ _ rows total h
      refine ⟨?_, ?_⟩
      · rw [ih.1]
        simp [List.append_assoc]
      · rw [ih.2]
        simp only [List.map_cons, List.sum_cons]
        ring

/-- A successful creation loop run over services with an empty accumulator
yields rows with pairwise-distinct service ids. -/
theorem create_booking_services_nodup (bid : ℕ) (dur : ℚ) :
    ∀ (svcs : List Service) (acc : List BookingServiceRec) (tot : ℚ)
      (rows : List BookingServiceRec) (total : ℚ),
      create_booking_services bid dur svcs acc tot = some (rows, total) →
      (acc.map (·.service_id)).Nodup → (rows.map (·.service_id)).Nodup
  | [], acc, tot, rows, total => by
    intro h hacc
    rw [create_booking_services] at h
    simp only [Option.some.injEq, Prod.mk.injEq] at h
    rw [← h.1]
    exact hacc
  | svc :: rest, acc, tot, rows, total => by
    intro h hacc
    rw [create_booking_services] at h
    by_cases hdup : acc.any (fun r => r.service_id == svc.id) = true
    · rw [if_pos hdup] at h
      simp at h
    · rw [if_neg hdup] at h
      refine create_booking_services_nodup bid dur rest _ _ rows total h ?_
      rw [List.map_append]
      rw [List.nodup_append]
      refine ⟨hacc, by simp, ?_⟩
      intro x hx
      simp only [List.map_cons, List.map_nil, List.mem_singleton]
      intro hxs
      obtain ⟨r, hr, hrx⟩ := List.mem_map.1 hx
      apply hdup
      rw [List.any_eq_true]
      refine ⟨r, hr, ?_⟩
      rw [hrx, hxs]
      simp

/-- C4 (amended): for every successful admission, the created booking's
status is `confirmed` iff the tenant's settings exist with
`ai_booking_auto_confirm` on, a confidence score was supplied, is nonzero
(Python truthiness) and meets the threshold, and no detected conflict has
severity high or critical; otherwise the status is `pending`. -/
theorem auto_confirm_status_characterization
    (db : DB) (uid : ℕ) (bd : BookingData) (now : ℤ) (sess : Option ℕ)
    (conf : Option ℚ) (bid : ℕ)
    (hfresh : ∀ b ∈ db.bookings, b.id < db.next_id)
    (hs : (create_booking_from_ai db uid bd now sess conf).1.success = true)
    (hb : (create_booking_from_ai db uid bd now sess conf).1.booking_id = some bid) :
    ∀ b ∈ (create_booking_from_ai db uid bd now sess conf).2.bookings,
      b.id = bid →
      (b.status = .confirmed ↔
        ∃ st, db.getSettings uid = some st ∧
          st.ai_booking_auto_confirm = true ∧
          (∃ cs : ℚ, conf = some cs ∧ cs ≠ 0 ∧ st.ai_confidence_threshold ≤ cs) ∧
          ∀ c ∈ (create_booking_from_ai db uid bd now sess conf).1.conflicts,
            c.severity ≠ .high ∧ c.severity ≠ .critical) := by
  obtain ⟨title, stv, etv, cd, sds, customer, db1, services, stt, ett, conflicts,
    ac, booking, rows, total, ht, hstv, hetv, hcd, hsds, hcust, hdb1, hserv,
    hne, hstt, hett, hlt, hconf, hac, hbook, hrt, heq⟩ :=
    create_booking_success_shape db uid bd now sess conf hs
  have hset : db1.getSettings uid = db.getSettings uid := by
    rw [hdb1, DB.getSettings, DB.getSettings,
      (get_or_create_customer_frame db uid cd).2.1]
  intro b hbm hbid
  rw [heq] at hbm hb ⊢
  simp only [admissionCommit] at hbm
  simp only at hb
  have hbid' : bid = booking.id := by
    injection hb with h
    exact h.symm
  have hbookid : booking.id = db1.next_id := by rw [hbook]; rfl
  rcases List.mem_append.1 hbm with hold | hnew
  · exfalso
    have hb1 : db1.bookings = db.bookings := by
      rw [hdb1]
      exact (get_or_create_customer_frame db uid cd).2.2.1
    rw [hb1] at hold
    have h1 := hfresh b hold
    have h2 : db.next_id ≤ db1.next_id := by
      rw [hdb1]
      exact (get_or_create_customer_frame db uid cd).2.2.2.2.2.1
    omega
  · have hbb : b = booking := by simpa using hnew
    subst hbb
    have hstat : b.status = if ac then BookingStatus.confirmed else .pending := by
      rw [hbook]
      rfl
    cases hacv : ac with
    | true =>
      rw [hacv] at hstat
      simp only [if_true] at hstat
      rw [hstat]
      have : admissionAutoConfirm db1 uid conf conflicts = true := by
        rw [← hac, hacv]
      obtain ⟨st, hst, hflag, hcs, hsev⟩ := (admissionAutoConfirm_iff _ _ _ _).1 this
      exact iff_of_true rfl ⟨st, by rw [← hset, hst], hflag, hcs, hsev⟩
    | false =>
      rw [hacv] at hstat
      simp at hstat
      rw [hstat]
      constructor
      · intro h
        exact absurd h (by simp)
      · rintro ⟨st, hst, hflag, hcs, hsev⟩
        exfalso
        have : admissionAutoConfirm db1 uid conf conflicts = true :=
          (admissionAutoConfirm_iff _ _ _ _).2
            ⟨st, by rw [hset, hst], hflag, hcs, hsev⟩
        rw [← hac] at this
        rw [hacv] at this
        exact Bool.false_ne_true this

/-- C4 (witness): the characterization applied to the auto-confirmed studio
admission (settings present, flag on, threshold 1, confidence 2, no
conflicts): the created booking is confirmed and the criterion holds. -/
theorem auto_confirm_status_characterization_witness :
    (({ id := 61, user_id := 1, customer_id := 60, title := "shoot",
        start_time := 0, end_time := 100, all_day := false,
        status := .confirmed, created_via := .ai_assistant,
        ai_session_id := none, ai_confidence_score := some 2 } : Booking).status
        = .confirmed ↔
      ∃ st, confidentDB.getSettings 1 = some st ∧
        st.ai_booking_auto_confirm = true ∧
        (∃ cs : ℚ, (some (2 : ℚ)) = some cs ∧ cs ≠ 0 ∧
          st.ai_confidence_threshold ≤ cs) ∧
        ∀ c ∈ (create_booking_from_ai confidentDB 1 studioReq 0 none
            (some 2)).1.conflicts,
          c.severity ≠ .high ∧ c.severity ≠ .critical) :=
  auto_confirm_status_characterization confidentDB 1 studioReq 0 none (some 2)
    61 (by decide) (by decide) (by decide)
    { id := 61, user_id := 1, customer_id := 60, title := "shoot",
      start_time := 0, end_time := 100, all_day := false,
      status := .confirmed, created_via := .ai_assistant,
      ai_session_id := none, ai_confidence_score := some 2 }
    (by decide) (by decide)

/-- C7 (amended): every successful admission persists, for each resolved
service, exactly one reservation row whose unit price is `ai_booking_price`
(hourly rate times hours if an hourly rate is set, else daily rate times
`max(1, hours/24)`, else the base price — not `get_price_for_duration`), and
reports the booking's total price as the sum of those prices. -/
theorem admission_prices_characterization
    (db : DB) (uid : ℕ) (bd : BookingData) (now : ℤ) (sess : Option ℕ)
    (conf : Option ℚ)
    (hs : (create_booking_from_ai db uid bd now sess conf).1.success = true) :
    ∃ (cd : CustomerData) (sds : List ServiceRefData) (stv etv : DTValue)
      (bid : ℕ),
      bd.customer = some cd ∧ bd.services = some sds ∧
      bd.start_time = some stv ∧ bd.end_time = some etv ∧
      (create_booking_from_ai db uid bd now sess conf).1.booking_id = some bid ∧
      (create_booking_from_ai db uid bd now sess conf).2.booking_services =
        db.booking_services ++
        (validate_services (get_or_create_customer db uid cd).2 uid sds).map
          (fun svc =>
            { booking_id := bid, service_id := svc.id, quantity := 1,
              price_per_unit := ai_booking_price svc
                (((parse_datetime etv now - parse_datetime stv now : ℤ) : ℚ) / 3600),
              total_price := ai_booking_price svc
                (((parse_datetime etv now - parse_datetime stv now : ℤ) : ℚ) / 3600),
              service_status := .reserved }) ∧
      (create_booking_from_ai db uid bd now sess conf).1.total_price =
        ((validate_services (get_or_create_customer db uid cd).2 uid sds).map
          (fun svc => ai_booking_price svc
            (((parse_datetime etv now - parse_datetime stv now : ℤ) : ℚ) / 3600))).sum := by
  obtain ⟨title, stv, etv, cd, sds, customer, db1, services, stt, ett, conflicts,
    ac, booking, rows, total, ht, hstv, hetv, hcd, hsds, hcust, hdb1, hserv,
    hne, hstt, hett, hlt, hconf, hac, hbook, hrt, heq⟩ :=
    create_booking_success_shape db uid bd now sess conf hs
  obtain ⟨hrows, htotal⟩ := create_booking_services_spec _ _ _ _ _ _ _ hrt
  refine ⟨cd, sds, stv, etv, booking.id, hcd, hsds, hstv, hetv, ?_, ?_, ?_⟩
  · rw [heq]
  · rw [heq]
    simp only [admissionCommit]
    have hb1 : db1.booking_services = db.booking_services := by
      rw [hdb1]
      exact (get_or_create_customer_frame db uid cd).2.2.2.1
    rw [hb1, hrows, hserv, hdb1, hstt, hett]
    simp
  · rw [heq]
    simp only
    rw [htotal, hserv, hdb1, hstt, hett]
    simp

/-- C7 (witness): the price characterization applied to the half-hour camera
admission. -/
theorem admission_prices_characterization_witness :
    ∃ (cd : CustomerData) (sds : List ServiceRefData) (stv etv : DTValue)
      (bid : ℕ),
      cameraReq.customer = some cd ∧ cameraReq.services = some sds ∧
      cameraReq.start_time = some stv ∧ cameraReq.end_time = some etv ∧
      (create_booking_from_ai (initialDB [camera] [] 30) 1 cameraReq 0 none
        none).1.booking_id = some bid ∧
      (create_booking_from_ai (initialDB [camera] [] 30) 1 cameraReq 0 none
        none).2.booking_services =
        (initialDB [camera] [] 30).booking_services ++
        (validate_services
          (get_or_create_customer (initialDB [camera] [] 30) 1 cd).2 1 sds).map
          (fun svc =>
            { booking_id := bid, service_id := svc.id, quantity := 1,
              price_per_unit := ai_booking_price svc
                (((parse_datetime etv 0 - parse_datetime stv 0 : ℤ) : ℚ) / 3600),
              total_price := ai_booking_price svc
                (((parse_datetime etv 0 - parse_datetime stv 0 : ℤ) : ℚ) / 3600),
              service_status := .reserved }) ∧
      (create_booking_from_ai (initialDB [camera] [] 30) 1 cameraReq 0 none
        none).1.total_price =
        ((validate_services
          (get_or_create_customer (initialDB [camera] [] 30) 1 cd).2 1 sds).map
          (fun svc => ai_booking_price svc
            (((parse_datetime etv 0 - parse_datetime stv 0 : ℤ) : ℚ) / 3600))).sum :=
  admission_prices_characterization (initialDB [camera] [] 30) 1 cameraReq 0
    none none (by decide)

/-- C9 (amended): each missing required field is reported, in the source's
checking order, as a field-level error naming the field with no writes
applied; an end time not after the start time is a field error on `end_time`
(though the customer row resolved before time validation has already been
written and commits); and an unparseable datetime is not an error at all —
`_parse_datetime` silently substitutes the current time. -/
theorem validation_error_characterization (db : DB) (uid : ℕ)
    (bd : BookingData) (now : ℤ) (sess : Option ℕ) (conf : Option ℚ) :
    (bd.title = none →
      create_booking_from_ai db uid bd now sess conf =
        (missingField "title", db)) ∧
    (bd.title ≠ none → bd.start_time = none →
      create_booking_from_ai db uid bd now sess conf =
        (missingField "start_time", db)) ∧
    (bd.title ≠ none → bd.start_time ≠ none → bd.end_time = none →
      create_booking_from_ai db uid bd now sess conf =
        (missingField "end_time", db)) ∧
    (bd.title ≠ none → bd.start_time ≠ none → bd.end_time ≠ none →
      bd.customer = none →
      create_booking_from_ai db uid bd now sess conf =
        (missingField "customer", db)) ∧
    (bd.title ≠ none → bd.start_time ≠ none → bd.end_time ≠ none →
      bd.customer ≠ none → bd.services = none →
      create_booking_from_ai db uid bd now sess conf =
        (missingField "services", db)) ∧
    (∀ (title : String) (stv etv : DTValue) (cd : CustomerData)
        (sds : List ServiceRefData),
      bd.title = some title → bd.start_time = some stv →
      bd.end_time = some etv → bd.customer = some cd →
      bd.services = some sds →
      (validate_services (get_or_create_customer db uid cd).2 uid sds).isEmpty
        = false →
      parse_datetime etv now ≤ parse_datetime stv now →
      create_booking_from_ai db uid bd now sess conf =
        ({ success := false
           error := some "End time must be after start time"
           field_errors := [("end_time", "Must be after start time")] },
         (get_or_create_customer db uid cd).2)) ∧
    parse_datetime .invalid now = now := by
  refine ⟨?_, ?_, ?_, ?_, ?_, ?_, rfl⟩
  · intro h
    rw [create_booking_from_ai, h]
  · intro h1 h2
    obtain ⟨t, ht⟩ := Option.ne_none_iff_exists'.1 h1
    rw [create_booking_from_ai, ht, h2]
  · intro h1 h2 h3
    obtain ⟨t, ht⟩ := Option.ne_none_iff_exists'.1 h1
    obtain ⟨sv, hsv⟩ := Option.ne_none_iff_exists'.1 h2
    rw [create_booking_from_ai, ht, hsv, h3]
  · intro h1 h2 h3 h4
    obtain ⟨t, ht⟩ := Option.ne_none_iff_exists'.1 h1
    obtain ⟨sv, hsv⟩ := Option.ne_none_iff_exists'.1 h2
    obtain ⟨ev, hev⟩ := Option.ne_none_iff_exists'.1 h3
    rw [create_booking_from_ai, ht, hsv, hev, h4]
  · intro h1 h2 h3 h4 h5
    obtain ⟨t, ht⟩ := Option.ne_none_iff_exists'.1 h1
    obtain ⟨sv, hsv⟩ := Option.ne_none_iff_exists'.1 h2
    obtain ⟨ev, hev⟩ := Option.ne_none_iff_exists'.1 h3
    obtain ⟨cv, hcv⟩ := Option.ne_none_iff_exists'.1 h4
    rw [create_booking_from_ai, ht, hsv, hev, hcv, h5]
  · intro title stv etv cd sds ht hsv hev hcv hsd hemp hle
    rw [create_booking_from_ai, ht, hsv, hev, hcv, hsd]
    simp only
    rw [if_neg (by rw [hemp]; simp), if_pos hle]

/-- C9 (witness): the end-before-start branch applied to a request for the
kayak with times swapped: a field error on `end_time`, with the resolved
customer state committed. -/
theorem validation_error_characterization_witness :
    create_booking_from_ai kayakDB0 1
      { title := some "trip", start_time := some (.dt 100),
        end_time := some (.dt 0),
        customer := some { email := some "a@b.c" },
        services := some [{ id := some 1 }] } 0 none none =
      ({ success := false
         error := some "End time must be after start time"
         field_errors := [("end_time", "Must be after start time")] },
       (get_or_create_customer kayakDB0 1 { email := some "a@b.c" }).2) :=
  (validation_error_characterization kayakDB0 1
    { title := some "trip", start_time := some (.dt 100),
      end_time := some (.dt 0),
      customer := some { email := some "a@b.c" },
      services := some [{ id := some 1 }] } 0 none none).2.2.2.2.2.1
    "trip" (.dt 100) (.dt 0) { email := some "a@b.c" } [{ id := some 1 }]
    rfl rfl rfl rfl rfl (by decide) (by decide)

/-! ### Monotonicity of the duration-based pricing function -/

/-- Arithmetic facts about the week split `d = 168 * (d // 168) + (d % 168)`
used by the recursive pricing branch. -/
theorem floor168_rem (d : ℚ) (hd : 168 < d) :
    (1 : ℤ) ≤ ⌊d / 168⌋ ∧ 0 ≤ d - 168 * (⌊d / 168⌋ : ℚ) ∧
    d - 168 * (⌊d / 168⌋ : ℚ) < 168 ∧
    ⌊(d - 168 * (⌊d / 168⌋ : ℚ)) / 168⌋ = 0 := by
  have hfl : (1 : ℤ) ≤ ⌊d / 168⌋ := by
    rw [Int.le_floor]
    push_cast
    rw [le_div_iff₀ (by norm_num : (0:ℚ) < 168)]
    linarith
  have h1 := Int.floor_le (d / 168)
  have h2 := Int.lt_floor_add_one (d / 168)
  have hrem0 : (0 : ℚ) ≤ d - 168 * (⌊d / 168⌋ : ℚ) := by nlinarith
  have hrem1 : d - 168 * (⌊d / 168⌋ : ℚ) < 168 := by nlinarith
  refine ⟨hfl, hrem0, hrem1, ?_⟩
  rw [Int.floor_eq_zero_iff]
  constructor
  · positivity
  · rw [div_lt_one (by norm_num : (0:ℚ) < 168)]
    exact hrem1

/-- A truthy optional rate with a non-negativity bound has a non-negative
default value. -/
theorem truthy_getD_nonneg {o : Option ℚ} (h : ∀ x, o = some x → 0 ≤ x) :
    0 ≤ o.getD 0 := by
  cases ho : o with
  | none => simp
  | some x => simpa using h x ho

/-- The pricing function is non-negative for non-negative rates and base. -/
theorem get_price_for_duration_nonneg (s : Service)
    (hB : 0 ≤ s.base_price)
    (hH : ∀ x, s.price_per_hour = some x → 0 ≤ x)
    (hD : ∀ x, s.price_per_day = some x → 0 ≤ x)
    (hW : ∀ x, s.price_per_week = some x → 0 ≤ x) :
    ∀ d : ℚ, 0 ≤ get_price_for_duration s d := by
  have hHv := truthy_getD_nonneg hH
  have hDv := truthy_getD_nonneg hD
  have hWv := truthy_getD_nonneg hW
  suffices hkey : ∀ n : ℕ, ∀ d : ℚ, (⌊d / 168⌋).toNat = n →
      0 ≤ get_price_for_duration s d from fun d => hkey _ d rfl
  intro n
  induction n using Nat.strong_induction_on with
  | _ n ih =>
    intro d hd
    rw [get_price_for_duration]
    split_ifs with h1 h2 h3 h4 h5 h6
    · exact hHv
    · exact hDv
    · exact hWv
    · obtain ⟨hfl, hr0, hr1, hrz⟩ := floor168_rem d h4.2
      have hrec : 0 ≤ get_price_for_duration s (d - 168 * (⌊d / 168⌋ : ℚ)) := by
        refine ih (⌊(d - 168 * (⌊d / 168⌋ : ℚ)) / 168⌋).toNat ?_ _ rfl
        rw [hrz]
        omega
      have hcast : (1 : ℚ) ≤ (⌊d / 168⌋ : ℚ) := by exact_mod_cast hfl
      nlinarith
    · have hone : (1 : ℤ) ≤ max 1 ⌊d / 24⌋ := le_max_left _ _
      have hcast : (1 : ℚ) ≤ ((max 1 ⌊d / 24⌋ : ℤ) : ℚ) := by exact_mod_cast hone
      nlinarith
    · have hd1 : 1 < d := by
        by_contra hle
        exact h1 ⟨le_of_not_lt hle, h6⟩
      nlinarith
    · exact hB

/-- A non-truthy rate field contributes 0 as its default value. -/
theorem truthy_false_getD {o : Option ℚ} (h : truthy o = false) :
    o.getD 0 = 0 := by
  cases ho : o with
  | none => rfl
  | some x =>
    rw [ho] at h
    simp only [truthy, decide_eq_false_iff_not, not_not] at h
    simp [h]

/-- Monotonicity of `get_price_for_duration` on arguments that never reach
the recursive weekly branch (no weekly rate, or both durations within a
week), for a rate card with non-negative rates ordered
hourly ≤ daily ≤ weekly where set. -/
theorem gpfd_mono_small (s : Service) (d1 d2 : ℚ)
    (hB : 0 ≤ s.base_price)
    (hH : ∀ x, s.price_per_hour = some x → 0 ≤ x)
    (hD : ∀ x, s.price_per_day = some x → 0 ≤ x)
    (hW : ∀ x, s.price_per_week = some x → 0 ≤ x)
    (hHD : truthy s.price_per_hour = true → truthy s.price_per_day = true →
      s.price_per_hour.getD 0 ≤ s.price_per_day.getD 0)
    (hDW : truthy s.price_per_day = true → truthy s.price_per_week = true →
      s.price_per_day.getD 0 ≤ s.price_per_week.getD 0)
    (hHW : truthy s.price_per_hour = true → truthy s.price_per_week = true →
      s.price_per_hour.getD 0 ≤ s.price_per_week.getD 0)
    (h12 : d1 ≤ d2)
    (hno : truthy s.price_per_week = false ∨ d2 ≤ 168) :
    get_price_for_duration s d1 ≤ get_price_for_duration s d2 := by
  have hHv := truthy_getD_nonneg hH
  have hDv := truthy_getD_nonneg hD
  have hWv := truthy_getD_nonneg hW
  have hmax2 : (1 : ℚ) ≤ ((max 1 ⌊d2 / 24⌋ : ℤ) : ℚ) := by
    exact_mod_cast le_max_left 1 ⌊d2 / 24⌋
  have hmax1 : (1 : ℚ) ≤ ((max 1 ⌊d1 / 24⌋ : ℤ) : ℚ) := by
    exact_mod_cast le_max_left 1 ⌊d1 / 24⌋
  have hfl24 : ((max 1 ⌊d1 / 24⌋ : ℤ) : ℚ) ≤ ((max 1 ⌊d2 / 24⌋ : ℤ) : ℚ) := by
    have h24 : d1 / 24 ≤ d2 / 24 := by linarith
    exact_mod_cast max_le_max le_rfl (Int.floor_le_floor h24)
  conv_lhs => rw [get_price_for_duration]
  conv_rhs => rw [get_price_for_duration]
  by_cases htw : truthy s.price_per_week = true
  · have hd2 : d2 ≤ 168 := by
      rcases hno with h | h
      · rw [htw] at h
        exact absurd h (by simp)
      · exact h
    have hd1 : d1 ≤ 168 := le_trans h12 hd2
    by_cases hth : truthy s.price_per_hour = true
    · by_cases htd : truthy s.price_per_day = true
      · have o1 := hHD hth htd
        have o2 := hDW htd htw
        have o3 := hHW hth htw
        simp only [hth, htd, htw, and_true]
        split_ifs <;> first | linarith | nlinarith [hHv, hDv, hWv]
      · have htd' : truthy s.price_per_day = false := by
          revert htd
          cases truthy s.price_per_day <;> simp
        have o3 := hHW hth htw
        simp only [hth, htd', htw, and_true, and_false, Bool.false_eq_true,
          if_false, false_and]
        split_ifs <;> first | linarith | nlinarith [hHv, hWv]
    · have hth' : truthy s.price_per_hour = false := by
        revert hth
        cases truthy s.price_per_hour <;> simp
      by_cases htd : truthy s.price_per_day = true
      · have o2 := hDW htd htw
        simp only [hth', htd, htw, and_true, and_false, Bool.false_eq_true,
          if_false, false_and]
        split_ifs <;> first | linarith | nlinarith [hDv, hWv]
      · have htd' : truthy s.price_per_day = false := by
          revert htd
          cases truthy s.price_per_day <;> simp
        simp only [hth', htd', htw, and_true, and_false, Bool.false_eq_true,
          if_false, false_and]
        split_ifs <;> first | linarith | nlinarith [hWv]
  · have htw' : truthy s.price_per_week = false := by
      revert htw
      cases truthy s.price_per_week <;> simp
    by_cases hth : truthy s.price_per_hour = true
    · by_cases htd : truthy s.price_per_day = true
      · have o1 := hHD hth htd
        simp only [hth, htd, htw', and_true, and_false, Bool.false_eq_true,
          if_false, false_and]
        split_ifs <;>
          first
            | linarith
            | nlinarith [hHv, hDv, hmax1, hmax2, hfl24]
      · have htd' : truthy s.price_per_day = false := by
          revert htd
          cases truthy s.price_per_day <;> simp
        simp only [hth, htd', htw', and_true, and_false, Bool.false_eq_true,
          if_false, false_and]
        split_ifs <;> first | linarith | nlinarith [hHv]
    · have hth' : truthy s.price_per_hour = false := by
        revert hth
        cases truthy s.price_per_hour <;> simp
      by_cases htd : truthy s.price_per_day = true
      · simp only [hth', htd, htw', and_true, and_false, Bool.false_eq_true,
          if_false, false_and]
        split_ifs <;>
          first
            | linarith
            | nlinarith [hDv, hmax1, hmax2, hfl24]
      · have htd' : truthy s.price_per_day = false := by
          revert htd
          cases truthy s.price_per_day <;> simp
        simp only [hth', htd', htw', and_true, and_false, Bool.false_eq_true,
          if_false, false_and]
        exact le_refl _

/-- Within one week, every price is at most the weekly rate (when set and
the rates are ordered). -/
theorem gpfd_le_weekly (s : Service) (d : ℚ)
    (hDW : truthy s.price_per_day = true → truthy s.price_per_week = true →
      s.price_per_day.getD 0 ≤ s.price_per_week.getD 0)
    (hHW : truthy s.price_per_hour = true → truthy s.price_per_week = true →
      s.price_per_hour.getD 0 ≤ s.price_per_week.getD 0)
    (htw : truthy s.price_per_week = true) (hd : d ≤ 168) :
    get_price_for_duration s d ≤ s.price_per_week.getD 0 := by
  conv_lhs => rw [get_price_for_duration]
  split_ifs with c1 c2 c3 c4 c5 c6
  · exact hHW c1.2 htw
  · exact hDW c2.2 htw
  · exact le_refl _
  · exact absurd ⟨hd, htw⟩ c3
  · exact absurd ⟨hd, htw⟩ c3
  · exact absurd ⟨hd, htw⟩ c3
  · exact absurd ⟨hd, htw⟩ c3

/-- C8 (amended): `get_price_for_duration` is monotonically non-decreasing in
duration for a fixed rate card with non-negative rates, provided additionally
the set rates are ordered hourly ≤ daily ≤ weekly (where "set" is the
source's truthiness test: present and nonzero).  Without that ordering the
function is not monotone. -/
theorem price_monotone_for_ordered_rates (s : Service)
    (hB : 0 ≤ s.base_price)
    (hH : ∀ x, s.price_per_hour = some x → 0 ≤ x)
    (hD : ∀ x, s.price_per_day = some x → 0 ≤ x)
    (hW : ∀ x, s.price_per_week = some x → 0 ≤ x)
    (hHD : truthy s.price_per_hour = true → truthy s.price_per_day = true →
      s.price_per_hour.getD 0 ≤ s.price_per_day.getD 0)
    (hDW : truthy s.price_per_day = true → truthy s.price_per_week = true →
      s.price_per_day.getD 0 ≤ s.price_per_week.getD 0)
    (hHW : truthy s.price_per_hour = true → truthy s.price_per_week = true →
      s.price_per_hour.getD 0 ≤ s.price_per_week.getD 0)
    (d1 d2 : ℚ) (h12 : d1 ≤ d2) :
    get_price_for_duration s d1 ≤ get_price_for_duration s d2 := by
  by_cases htw : truthy s.price_per_week = true
  · by_cases h2 : d2 ≤ 168
    · exact gpfd_mono_small s d1 d2 hB hH hD hW hHD hDW hHW h12 (Or.inr h2)
    · have h2' : (168 : ℚ) < d2 := lt_of_not_le h2
      obtain ⟨hfl2, hr20, hr21, hrz2⟩ := floor168_rem d2 h2'
      have hnn := get_price_for_duration_nonneg s hB hH hD hW
      have hWv := truthy_getD_nonneg hW
      have hk2 : (1 : ℚ) ≤ (⌊d2 / 168⌋ : ℚ) := by exact_mod_cast hfl2
      have hrec2 : get_price_for_duration s d2 =
          (⌊d2 / 168⌋ : ℚ) * s.price_per_week.getD 0 +
          get_price_for_duration s (d2 - 168 * (⌊d2 / 168⌋ : ℚ)) := by
        conv_lhs => rw [get_price_for_duration]
        rw [if_neg (by rintro ⟨h, _⟩; linarith),
          if_neg (by rintro ⟨h, _⟩; linarith),
          if_neg (by rintro ⟨h, _⟩; linarith),
          if_pos ⟨htw, h2'⟩]
      by_cases h1 : d1 ≤ 168
      · have ha := gpfd_le_weekly s d1 hDW hHW htw h1
        have hb := hnn (d2 - 168 * (⌊d2 / 168⌋ : ℚ))
        rw [hrec2]
        nlinarith
      · have h1' : (168 : ℚ) < d1 := lt_of_not_le h1
        obtain ⟨hfl1, hr10, hr11, hrz1⟩ := floor168_rem d1 h1'
        have hrec1 : get_price_for_duration s d1 =
            (⌊d1 / 168⌋ : ℚ) * s.price_per_week.getD 0 +
            get_price_for_duration s (d1 - 168 * (⌊d1 / 168⌋ : ℚ)) := by
          conv_lhs => rw [get_price_for_duration]
          rw [if_neg (by rintro ⟨h, _⟩; linarith),
            if_neg (by rintro ⟨h, _⟩; linarith),
            if_neg (by rintro ⟨h, _⟩; linarith),
            if_pos ⟨htw, h1'⟩]
        have hk12 : ⌊d1 / 168⌋ ≤ ⌊d2 / 168⌋ :=
          Int.floor_le_floor (by linarith)
        rw [hrec1, hrec2]
        rcases eq_or_lt_of_le hk12 with heqk | hltk
        · have hc : (⌊d1 / 168⌋ : ℚ) = (⌊d2 / 168⌋ : ℚ) := by
            exact_mod_cast congrArg Int.cast heqk
          have hrem : d1 - 168 * (⌊d1 / 168⌋ : ℚ) ≤
              d2 - 168 * (⌊d2 / 168⌋ : ℚ) := by
            rw [← hc]
            linarith
          have hm := gpfd_mono_small s (d1 - 168 * (⌊d1 / 168⌋ : ℚ))
            (d2 - 168 * (⌊d2 / 168⌋ : ℚ)) hB hH hD hW hHD hDW hHW hrem
            (Or.inr (le_of_lt hr21))
          have hkeq : (⌊d1 / 168⌋ : ℚ) * s.price_per_week.getD 0 =
              (⌊d2 / 168⌋ : ℚ) * s.price_per_week.getD 0 := by
            rw [hc]
          linarith
        · have hk1c : (⌊d1 / 168⌋ : ℚ) + 1 ≤ (⌊d2 / 168⌋ : ℚ) := by
            have : ⌊d1 / 168⌋ + 1 ≤ ⌊d2 / 168⌋ := hltk
            exact_mod_cast this
          have hcap1 := gpfd_le_weekly s (d1 - 168 * (⌊d1 / 168⌋ : ℚ)) hDW hHW
            htw (le_of_lt hr11)
          have hnn2 := hnn (d2 - 168 * (⌊d2 / 168⌋ : ℚ))
          have hprod : 0 ≤ ((⌊d2 / 168⌋ : ℚ) - (⌊d1 / 168⌋ : ℚ) - 1) *
              s.price_per_week.getD 0 :=
            mul_nonneg (by linarith) hWv
          linarith
  · have htw' : truthy s.price_per_week = false := by
      revert htw
      cases truthy s.price_per_week <;> simp
    exact gpfd_mono_small s d1 d2 hB hH hD hW hHD hDW hHW h12 (Or.inl htw')

/-- C8 (witness): monotonicity applied to the fully-ordered rate card
`fairRates` at durations 1 and 2. -/
theorem price_monotone_for_ordered_rates_witness :
    get_price_for_duration fairRates 1 ≤ get_price_for_duration fairRates 2 :=
  price_monotone_for_ordered_rates fairRates (by norm_num [fairRates])
    (fun x hx => by
      rw [show fairRates.price_per_hour = some 1 from rfl] at hx
      injection hx with h
      rw [← h]
      norm_num)
    (fun x hx => by
      rw [show fairRates.price_per_day = some 2 from rfl] at hx
      injection hx with h
      rw [← h]
      norm_num)
    (fun x hx => by
      rw [show fairRates.price_per_week = some 3 from rfl] at hx
      injection hx with h
      rw [← h]
      norm_num)
    (fun _ _ => by norm_num [fairRates])
    (fun _ _ => by norm_num [fairRates])
    (fun _ _ => by norm_num [fairRates])
    1 2 (by norm_num)

/-! ### Preservation of the confirmed-capacity invariant by admissions -/

theorem sum_map_one {α : Type} (l : List α) (f : α → ℤ)
    (h : ∀ x ∈ l, f x = 1) : (l.map f).sum = l.length := by
  induction l with
  | nil => simp
  | cons a t ih =>
    simp only [List.map_cons, List.sum_cons, List.length_cons,
      h a (by simp), ih (fun x hx => h x (by simp [hx]))]
    omega

theorem bid_nodup_of_keys (l : List BookingServiceRec) (sid : ℕ)
    (hk : (l.map (fun r => (r.booking_id, r.service_id))).Nodup)
    (hs : ∀ r ∈ l, r.service_id = sid) :
    (l.map (·.booking_id)).Nodup := by
  induction l with
  | nil => simp
  | cons r t ih =>
    simp only [List.map_cons, List.nodup_cons] at hk ⊢
    refine ⟨?_, ih hk.2 (fun r' hr' => hs r' (by simp [hr']))⟩
    intro hmem
    obtain ⟨r', hr', hb⟩ := List.mem_map.1 hmem
    apply hk.1
    refine List.mem_map.2 ⟨r', hr', ?_⟩
    rw [hb, hs r (by simp), hs r' (by simp [hr'])]

theorem validate_services_mem {db : DB} {uid : ℕ} {l : List ServiceRefData}
    {svc : Service} (h : svc ∈ validate_services db uid l) :
    svc ∈ db.services ∧ svc.user_id = uid ∧ svc.is_active = true := by
  rw [validate_services] at h
  obtain ⟨sd, _, hin⟩ := List.mem_flatMap.1 h
  cases hid : sd.id with
  | some sid =>
    simp only [hid] at hin
    cases hf : db.services.find? (fun s =>
        s.id == sid && s.user_id == uid && s.is_active) with
    | none => simp only [hf] at hin; simp at hin
    | some s =>
      simp only [hf, List.mem_singleton] at hin
      subst hin
      have hmem := List.mem_of_find?_eq_some hf
      have hp := List.find?_some hf
      simp only [Bool.and_eq_true, beq_iff_eq] at hp
      exact ⟨hmem, hp.1.2, hp.2⟩
  | none =>
    simp only [hid] at hin
    by_cases hemp : pyLower (pyStrip (sd.name.getD "")) = ""
    · rw [if_pos hemp] at hin
      simp at hin
    · rw [if_neg hemp] at hin
      cases hf : db.services.find? (fun s =>
          s.user_id == uid && s.is_active &&
          nameIContains s.name (pyLower (pyStrip (sd.name.getD "")))) with
      | none => simp only [hf] at hin; simp at hin
      | some s =>
        simp only [hf, List.mem_singleton] at hin
        subst hin
        have hmem := List.mem_of_find?_eq_some hf
        have hp := List.find?_some hf
        simp only [Bool.and_eq_true, beq_iff_eq] at hp
        exact ⟨hmem, hp.1.1, hp.1.2⟩

theorem getService_unique {db : DB} {uid sid : ℕ} {svc : Service}
    (hnodup : (db.services.map (·.id)).Nodup) (hmem : svc ∈ db.services)
    (hid : svc.id = sid) (huser : svc.user_id = uid) :
    db.getService uid sid = some svc := by
  rw [DB.getService]
  cases hf : db.services.find? (fun s => s.id == sid && s.user_id == uid) with
  | none =>
    exfalso
    have := List.find?_eq_none.1 hf svc hmem
    simp [hid, huser] at this
  | some s =>
    have hmem' := List.mem_of_find?_eq_some hf
    have hp := List.find?_some hf
    simp only [Bool.and_eq_true, beq_iff_eq] at hp
    have : s = svc :=
      List.inj_on_of_nodup_map hnodup hmem' hmem (by rw [hp.1, hid])
    rw [this]

theorem usageAt_congr {dbA dbB : DB} (sid : ℕ) (t : ℤ) (p : Booking → Bool)
    (h1 : dbA.booking_services = dbB.booking_services)
    (h2 : dbA.bookings = dbB.bookings) :
    usageAt dbA sid t p = usageAt dbB sid t p := by
  rw [usageAt, usageAt, h1, h2]

theorem bookingHasService_congr {dbA dbB : DB} (b : Booking) (sid : ℕ)
    (h1 : dbA.booking_services = dbB.booking_services) :
    dbA.bookingHasService b sid = dbB.bookingHasService b sid := by
  rw [DB.bookingHasService, DB.bookingHasService, h1]

/-- The invariant only reads the services, bookings and booking-service
tables. -/
theorem ConfirmedCapacityInvariant_congr {dbA dbB : DB}
    (hs : dbA.services = dbB.services) (hb : dbA.bookings = dbB.bookings)
    (hr : dbA.booking_services = dbB.booking_services)
    (h : ConfirmedCapacityInvariant dbA) : ConfirmedCapacityInvariant dbB := by
  intro svc hsvc
  obtain ⟨hlim, huniq⟩ := h svc (by rw [hs]; exact hsvc)
  constructor
  · intro ht hq t
    rw [← usageAt_congr svc.id t isConfirmed hr hb]
    exact hlim ht hq t
  · intro ht b1 hb1 b2 hb2 hc1 hc2 hhs1 hhs2 ho1 ho2
    refine huniq ht b1 (by rw [hb]; exact hb1) b2 (by rw [hb]; exact hb2)
      hc1 hc2 ?_ ?_ ho1 ho2
    · rw [bookingHasService_congr b1 svc.id hr]
      exact hhs1
    · rw [bookingHasService_congr b2 svc.id hr]
      exact hhs2

theorem isActive_of_confirmed {b : Booking} (h : isConfirmed b = true) :
    b.status.isActive = true := by
  rw [isConfirmed] at h
  have : b.status = .confirmed := by simpa using h
  rw [this]
  rfl

/-- Usage accounting across a successful commit: old reservations keep their
contribution (the new booking id is fresh), and the new rows contribute
exactly when the new booking matches the predicate and contains the
instant. -/
theorem usageAt_commit (db1 : DB) (booking : Booking)
    (rows : List BookingServiceRec) (logs : List ConflictLogRec)
    (sid : ℕ) (t : ℤ) (p : Booking → Bool)
    (hfresh_rows : ∀ r ∈ db1.booking_services, r.booking_id ≠ booking.id)
    (hfresh_bk : ∀ b ∈ db1.bookings, b.id ≠ booking.id)
    (hnew : ∀ r ∈ rows, r.booking_id = booking.id) :
    usageAt (admissionCommit db1 booking rows logs) sid t p =
      usageAt db1 sid t p +
      (if p booking = true ∧ booking.start_time ≤ t ∧ t < booking.end_time then
        ((rows.filter (fun r => r.service_id == sid)).map (·.quantity)).sum
      else 0) := by
  rw [usageAt, usageAt]
  simp only [admissionCommit]
  rw [List.filter_append, List.map_append, List.sum_append]
  congr 1
  · apply congrArg
    apply congrArg
    apply List.filter_congr
    intro r hr
    rw [List.any_append]
    have hbne : (booking.id == r.booking_id) = false := by
      simp [Ne.symm (hfresh_rows r hr)]
    simp [hbne]
  · by_cases hc : p booking = true ∧ booking.start_time ≤ t ∧
        t < booking.end_time
    · rw [if_pos hc]
      apply congrArg
      apply congrArg
      apply List.filter_congr
      intro r hr
      rw [List.any_append]
      have hold : db1.bookings.any (fun b => b.id == r.booking_id && p b &&
          decide (b.start_time ≤ t) && decide (t < b.end_time)) = false := by
        rw [List.any_eq_false]
        intro b hb
        have : (b.id == r.booking_id) = false := by
          rw [hnew r hr]
          simp [hfresh_bk b hb]
        simp [this]
      have hbk : (booking.id == r.booking_id) = true := by
        rw [hnew r hr]
        simp
      simp [hold, hbk, hc.1, hc.2.1, hc.2.2]
    · rw [if_neg hc]
      have hnil : rows.filter (fun r => r.service_id == sid &&
          (db1.bookings ++ [booking]).any (fun b => b.id == r.booking_id &&
            p b && decide (b.start_time ≤ t) && decide (t < b.end_time))) = [] := by
        rw [List.filter_eq_nil_iff]
        intro r hr
        rw [List.any_append]
        have hold : db1.bookings.any (fun b => b.id == r.booking_id && p b &&
            decide (b.start_time ≤ t) && decide (t < b.end_time)) = false := by
          rw [List.any_eq_false]
          intro b hb
          have : (b.id == r.booking_id) = false := by
            rw [hnew r hr]
            simp [hfresh_bk b hb]
          simp [this]
        have hbkcond : (p booking && decide (booking.start_time ≤ t) &&
            decide (t < booking.end_time)) = false := by
          by_cases h1 : p booking = true
          · by_cases h2 : booking.start_time ≤ t
            · by_cases h3 : t < booking.end_time
              · exact absurd ⟨h1, h2, h3⟩ hc
              · simp [h1, h2, h3]
            · simp [h1, h2]
          · have : p booking = false := by
              revert h1
              cases p booking <;> simp
            simp [this]
        have hbk : (booking.id == r.booking_id) = true := by
          rw [hnew r hr]
          simp
        simp only [List.any_cons, List.any_nil, hold, Bool.false_or,
          Bool.or_false, hbk, Bool.true_and]
        intro hsid
        rw [hbkcond] at hsid
        simp at hsid
      rw [hnil]
      simp

/-- At any instant inside the admission window, the confirmed usage already
recorded is at most the detection-time quantity total over overlapping
active bookings. -/
theorem usage_le_detection (db1 : DB) (uid sid : ℕ) (s e t : ℤ)
    (hq : ∀ r ∈ db1.booking_services, r.quantity = 1)
    (hkeys : (db1.booking_services.map
      (fun r => (r.booking_id, r.service_id))).Nodup)
    (huser : ∀ r ∈ db1.booking_services, r.service_id = sid →
      ∀ b ∈ db1.bookings, b.id = r.booking_id → b.user_id = uid)
    (hts : s ≤ t) (hte : t < e) :
    usageAt db1 sid t isConfirmed ≤
      db1.totalQuantityUsed (db1.overlappingBookings uid sid s e none) sid := by
  have hA : usageAt db1 sid t isConfirmed =
      (db1.booking_services.filter (fun r => r.service_id == sid &&
        db1.bookings.any (fun b => b.id == r.booking_id && isConfirmed b &&
          decide (b.start_time ≤ t) && decide (t < b.end_time)))).length := by
    rw [usageAt]
    exact sum_map_one _ _ (fun r hr => hq r (List.mem_of_mem_filter hr))
  have hB : db1.totalQuantityUsed (db1.overlappingBookings uid sid s e none) sid
      = (db1.overlappingBookings uid sid s e none).length := by
    rw [DB.totalQuantityUsed]
    refine sum_map_one _ _ ?_
    intro b hb
    have hbs : db1.bookingHasService b sid = true := by
      have hmem := List.mem_filter.1 hb
      have := hmem.2
      simp only [Bool.and_eq_true] at this
      exact this.1.1.1.1.2
    rw [DB.bookingHasService] at hbs
    obtain ⟨r0, hr0, hc0⟩ := List.any_eq_true.1 hbs
    rw [DB.firstBookingService]
    cases hf : db1.booking_services.find? (fun r =>
        r.booking_id == b.id && r.service_id == sid) with
    | none =>
      exfalso
      have := List.find?_eq_none.1 hf r0 hr0
      exact this hc0
    | some rr =>
      have := hq rr (List.mem_of_find?_eq_some hf)
      simp [this]
  rw [hA, hB]
  have hsub : (db1.booking_services.filter (fun r => r.service_id == sid &&
      db1.bookings.any (fun b => b.id == r.booking_id && isConfirmed b &&
        decide (b.start_time ≤ t) && decide (t < b.end_time)))).map
        (·.booking_id) ⊆
      (db1.overlappingBookings uid sid s e none).map (·.id) := by
    intro x hx
    obtain ⟨r, hrR, hrx⟩ := List.mem_map.1 hx
    obtain ⟨hrmem, hrcond⟩ := List.mem_filter.1 hrR
    simp only [Bool.and_eq_true, beq_iff_eq] at hrcond
    obtain ⟨hsid, hany⟩ := hrcond
    obtain ⟨b, hb, hbcond⟩ := List.any_eq_true.1 hany
    simp only [Bool.and_eq_true, beq_iff_eq, decide_eq_true_eq] at hbcond
    obtain ⟨⟨⟨hbid, hbconf⟩, hbst⟩, hbet⟩ := hbcond
    refine List.mem_map.2 ⟨b, ?_, by rw [← hrx, ← hbid]⟩
    rw [DB.overlappingBookings, List.mem_filter]
    refine ⟨hb, ?_⟩
    have hu : b.user_id = uid := huser r hrmem hsid b hb hbid
    have hhs : db1.bookingHasService b sid = true := by
      rw [DB.bookingHasService]
      rw [List.any_eq_true]
      exact ⟨r, hrmem, by simp [hbid, hsid]⟩
    have hact := isActive_of_confirmed hbconf
    simp only [Bool.and_eq_true, beq_iff_eq, decide_eq_true_eq]
    refine ⟨⟨⟨⟨⟨hu, hhs⟩, by omega⟩, by omega⟩, hact⟩, rfl⟩
  have hnd : ((db1.booking_services.filter (fun r => r.service_id == sid &&
      db1.bookings.any (fun b => b.id == r.booking_id && isConfirmed b &&
        decide (b.start_time ≤ t) && decide (t < b.end_time)))).map
        (·.booking_id)).Nodup := by
    apply bid_nodup_of_keys _ sid
    · exact List.Nodup.sublist
        (List.Sublist.map _ (List.filter_sublist _)) hkeys
    · intro r hr
      have := (List.mem_filter.1 hr).2
      simp only [Bool.and_eq_true, beq_iff_eq] at this
      exact this.1
  have hlen : (db1.booking_services.filter (fun r => r.service_id == sid &&
      db1.bookings.any (fun b => b.id == r.booking_id && isConfirmed b &&
        decide (b.start_time ≤ t) && decide (t < b.end_time)))).length ≤
      (db1.overlappingBookings uid sid s e none).length := by
    calc (db1.booking_services.filter (fun r => r.service_id == sid &&
          db1.bookings.any (fun b => b.id == r.booking_id && isConfirmed b &&
            decide (b.start_time ≤ t) && decide (t < b.end_time)))).length
        = ((db1.booking_services.filter (fun r => r.service_id == sid &&
            db1.bookings.any (fun b => b.id == r.booking_id && isConfirmed b &&
              decide (b.start_time ≤ t) && decide (t < b.end_time)))).map
              (·.booking_id)).length := (List.length_map _ _).symm
      _ ≤ ((db1.overlappingBookings uid sid s e none).map (·.id)).length :=
          (hnd.subperm hsub).length_le
      _ = (db1.overlappingBookings uid sid s e none).length :=
          List.length_map _ _
  exact_mod_cast hlen

theorem keys_nodup_of_sid (l : List BookingServiceRec) (k : ℕ)
    (hnd : (l.map (·.service_id)).Nodup) (hb : ∀ r ∈ l, r.booking_id = k) :
    (l.map (fun r => (r.booking_id, r.service_id))).Nodup := by
  induction l with
  | nil => simp
  | cons r t ih =>
    simp only [List.map_cons, List.nodup_cons] at hnd ⊢
    refine ⟨?_, ih hnd.2 (fun r' hr' => hb r' (by simp [hr']))⟩
    intro hmem
    obtain ⟨r', hr', hkey⟩ := List.mem_map.1 hmem
    exact hnd.1 (List.mem_map.2 ⟨r', hr', congrArg Prod.snd hkey⟩)

theorem filter_sid_sum_one (rows : List BookingServiceRec) (sid : ℕ)
    (hq : ∀ r ∈ rows, r.quantity = 1)
    (hnd : (rows.map (·.service_id)).Nodup)
    (hmem : sid ∈ rows.map (·.service_id)) :
    ((rows.filter (fun r => r.service_id == sid)).map (·.quantity)).sum = 1 := by
  induction rows with
  | nil => simp at hmem
  | cons r t ih =>
    simp only [List.map_cons, List.nodup_cons] at hnd
    rw [List.filter_cons]
    by_cases hr : r.service_id = sid
    · have hnot : t.filter (fun r' => r'.service_id == sid) = [] := by
        rw [List.filter_eq_nil_iff]
        intro r' hr'
        intro hcontra
        apply hnd.1
        refine List.mem_map.2 ⟨r', hr', ?_⟩
        have : r'.service_id = sid := by simpa using hcontra
        rw [this, hr]
      rw [if_pos (by simp [hr])]
      rw [List.map_cons, List.sum_cons, hnot]
      simp [hq r (by simp)]
    · rw [if_neg (by simp [hr])]
      have hmem' : sid ∈ t.map (·.service_id) := by
        simp only [List.map_cons, List.mem_cons] at hmem
        rcases hmem with h | h
        · exact absurd h.symm hr
        · exact h
      exact ih (fun r' hr' => hq r' (by simp [hr'])) hnd.2 hmem'

theorem bookingHasService_commit (db1 : DB) (booking : Booking)
    (rows : List BookingServiceRec) (logs : List ConflictLogRec)
    (b : Booking) (sid : ℕ) (hb : b.id ≠ booking.id)
    (hnew : ∀ r ∈ rows, r.booking_id = booking.id) :
    (admissionCommit db1 booking rows logs).bookingHasService b sid =
      db1.bookingHasService b sid := by
  rw [DB.bookingHasService, DB.bookingHasService]
  simp only [admissionCommit]
  rw [List.any_append]
  have hnone : rows.any
      (fun r => r.booking_id == b.id && r.service_id == sid) = false := by
    rw [List.any_eq_false]
    intro r hr hc
    simp only [Bool.and_eq_true, beq_iff_eq] at hc
    exact hb (hc.1.symm.trans (hnew r hr))
  rw [hnone, Bool.or_false]

theorem bookingHasService_commit_new (db1 : DB) (booking : Booking)
    (rows : List BookingServiceRec) (logs : List ConflictLogRec) (sid : ℕ)
    (hfresh_rows : ∀ r ∈ db1.booking_services, r.booking_id ≠ booking.id)
    (h : (admissionCommit db1 booking rows logs).bookingHasService booking sid
      = true) :
    ∃ r ∈ rows, r.service_id = sid := by
  rw [DB.bookingHasService] at h
  simp only [admissionCommit] at h
  rw [List.any_append] at h
  have hold : db1.booking_services.any
      (fun r => r.booking_id == booking.id && r.service_id == sid) = false := by
    rw [List.any_eq_false]
    intro r hr hc
    simp only [Bool.and_eq_true, beq_iff_eq] at hc
    exact hfresh_rows r hr hc.1
  rw [hold, Bool.false_or] at h
  obtain ⟨r, hr, hc⟩ := List.any_eq_true.1 h
  simp only [Bool.and_eq_true, beq_iff_eq] at hc
  exact ⟨r, hr, hc.2⟩

theorem mem_detect_conflicts_of_avail {db : DB} {uid : ℕ} {s e : ℤ}
    {sids : List ℕ} {excl : Option ℕ} {c : Conflict}
    (h : c ∈ detect_availability_conflicts db uid sids s e excl) :
    c ∈ detect_conflicts db uid s e sids excl := by
  simp only [detect_conflicts, List.mem_append]
  tauto

theorem service_conflict_of_capacity {db : DB} {uid : ℕ} {sids : List ℕ}
    {s e : ℤ} {excl : Option ℕ} {sid : ℕ} {svc : Service}
    (hmem : sid ∈ sids) (hsvc : db.getService uid sid = some svc)
    (hnul : svc.availability_type ≠ .unlimited)
    (hcond : svc.quantity_available <
      db.totalQuantityUsed (db.overlappingBookings uid sid s e excl) sid + 1)
    (hne : db.overlappingBookings uid sid s e excl ≠ []) :
    ∃ c ∈ detect_conflicts db uid s e sids excl, c.severity = .high := by
  obtain ⟨b0, hb0⟩ := List.exists_mem_of_ne_nil _ hne
  have hin : ({ ctype := .service_overlap, severity := .high,
                service_id := some sid,
                conflicting_booking_id := some b0.id,
                overlap_start := some (max s b0.start_time),
                overlap_end := some (min e b0.end_time),
                suggestions := generate_conflict_suggestions s e b0 } :
      Conflict) ∈
      sids.flatMap (fun sid => detect_service_conflicts db uid sid s e excl) := by
    rw [List.mem_flatMap]
    refine ⟨sid, hmem, ?_⟩
    rw [detect_service_conflicts]
    simp only [hsvc]
    rw [if_neg hnul, if_pos hcond]
    exact List.mem_map.2 ⟨b0, hb0, rfl⟩
  refine ⟨{ ctype := .service_overlap, severity := .high,
            service_id := some sid,
            conflicting_booking_id := some b0.id,
            overlap_start := some (max s b0.start_time),
            overlap_end := some (min e b0.end_time),
            suggestions := generate_conflict_suggestions s e b0 }, ?_, rfl⟩
  simp only [detect_conflicts, List.mem_append]
  tauto

theorem resolved_service_getService {db1 : DB} {uid : ℕ}
    {sds : List ServiceRefData} {svc : Service}
    (hnd : (db1.services.map (·.id)).Nodup) (hsvc : svc ∈ db1.services)
    (hsmem : svc.id ∈ (validate_services db1 uid sds).map (·.id)) :
    db1.getService uid svc.id = some svc ∧ svc.user_id = uid := by
  obtain ⟨svc1, hm1, hid1⟩ := List.mem_map.1 hsmem
  obtain ⟨hm1', huser1, _⟩ := validate_services_mem hm1
  have heq1 : svc1 = svc := List.inj_on_of_nodup_map hnd hm1' hsvc hid1
  rw [← heq1]
  exact ⟨getService_unique hnd hm1' rfl huser1, huser1⟩

theorem customer_step_preserves (db : DB) (uid : ℕ) (cd : CustomerData)
    (hwf : DBWF db) (hinv : ConfirmedCapacityInvariant db) :
    DBWF (get_or_create_customer db uid cd).2 ∧
    ConfirmedCapacityInvariant (get_or_create_customer db uid cd).2 := by
  obtain ⟨f1, f2, f3, f4, f5, f6, f7⟩ := get_or_create_customer_frame db uid cd
  constructor
  · exact
      { services_nodup := by rw [f1]; exact hwf.services_nodup
        bookings_nodup := by rw [f3]; exact hwf.bookings_nodup
        bookings_lt := by
          rw [f3]
          intro b hb
          exact lt_of_lt_of_le (hwf.bookings_lt b hb) f6
        rows_quantity := by rw [f4]; exact hwf.rows_quantity
        rows_parent := by rw [f4, f3]; exact hwf.rows_parent
        rows_user := by rw [f4, f3, f1]; exact hwf.rows_user
        rows_key_nodup := by rw [f4]; exact hwf.rows_key_nodup }
  · exact ConfirmedCapacityInvariant_congr f1.symm f3.symm f4.symm hinv

/-- A successful admission preserves well-formedness and the confirmed
capacity invariant: the committed booking either is pending (contributing
nothing to confirmed usage) or was auto-confirmed, which required the
detected conflict set to be free of high/critical conflicts, which in turn
bounds the detection-time capacity arithmetic. -/
theorem admission_success_preserves (db : DB) (uid : ℕ) (bd : BookingData)
    (now : ℤ) (sess : Option ℕ) (conf : Option ℚ)
    (hwf : DBWF db) (hinv : ConfirmedCapacityInvariant db)
    (hs : (create_booking_from_ai db uid bd now sess conf).1.success = true) :
    DBWF (create_booking_from_ai db uid bd now sess conf).2 ∧
    ConfirmedCapacityInvariant (create_booking_from_ai db uid bd now sess conf).2 := by
  obtain ⟨title, stv, etv, cd, sds, customer, db1, services, stt, ett, conflicts,
    ac, booking, rows, total, ht, hstv, hetv, hcd, hsds, hcust, hdb1, hserv,
    hne, hstt, hett, hlt, hconf, hac, hbook, hrt, heq⟩ :=
    create_booking_success_shape db uid bd now sess conf hs
  have hstep := customer_step_preserves db uid cd hwf hinv
  rw [← hdb1] at hstep
  obtain ⟨hwf1, hinv1⟩ := hstep
  have hcommit : (create_booking_from_ai db uid bd now sess conf).2 =
      admissionCommit db1 booking rows (admissionLogs uid conflicts booking.id) := by
    rw [heq]
  rw [hcommit]
  -- booking field facts
  have hbid : booking.id = db1.next_id := by rw [hbook]; rfl
  have hbuser : booking.user_id = uid := by rw [hbook]; rfl
  have hbstart : booking.start_time = stt := by rw [hbook]; rfl
  have hbend : booking.end_time = ett := by rw [hbook]; rfl
  have hbstatus : booking.status =
      if ac = true then BookingStatus.confirmed else BookingStatus.pending := by
    rw [hbook]; rfl
  -- row facts
  have hspec := create_booking_services_spec booking.id
    (((ett - stt : ℤ) : ℚ) / 3600) services [] 0 rows total hrt
  have hrows := hspec.1
  rw [List.nil_append] at hrows
  have hrnodup : (rows.map (·.service_id)).Nodup :=
    create_booking_services_nodup booking.id (((ett - stt : ℤ) : ℚ) / 3600)
      services [] 0 rows total hrt (by simp)
  have hrbid : ∀ r ∈ rows, r.booking_id = booking.id := by
    intro r hr
    rw [hrows] at hr
    obtain ⟨svc0, _, hsvc0⟩ := List.mem_map.1 hr
    rw [← hsvc0]
  have hrq : ∀ r ∈ rows, r.quantity = 1 := by
    intro r hr
    rw [hrows] at hr
    obtain ⟨svc0, _, hsvc0⟩ := List.mem_map.1 hr
    rw [← hsvc0]
  have hsidseq : rows.map (·.service_id) = services.map (·.id) := by
    rw [hrows, List.map_map]
    rfl
  -- freshness of the new booking id
  have hfresh_rows : ∀ r ∈ db1.booking_services, r.booking_id ≠ booking.id := by
    intro r hr
    obtain ⟨b0, hb0, hb0id⟩ := hwf1.rows_parent r hr
    have := hwf1.bookings_lt b0 hb0
    rw [hbid]
    omega
  have hfresh_bk : ∀ b ∈ db1.bookings, b.id ≠ booking.id := by
    intro b hb
    have := hwf1.bookings_lt b hb
    rw [hbid]
    omega
  constructor
  · exact
      { services_nodup := by
          simp only [admissionCommit]
          exact hwf1.services_nodup
        bookings_nodup := by
          simp only [admissionCommit]
          rw [List.map_append, List.nodup_append]
          refine ⟨hwf1.bookings_nodup, by simp, ?_⟩
          intro x hx hx2
          obtain ⟨b0, hb0, hb0x⟩ := List.mem_map.1 hx
          have hxb : x = booking.id := by simpa using hx2
          exact hfresh_bk b0 hb0 (hb0x.trans hxb)
        bookings_lt := by
          simp only [admissionCommit]
          intro b hb
          rcases List.mem_append.1 hb with h | h
          · have := hwf1.bookings_lt b h
            omega
          · have hbb : b = booking := by simpa using h
            rw [hbb, hbid]
            omega
        rows_quantity := by
          simp only [admissionCommit]
          intro r hr
          rcases List.mem_append.1 hr with h | h
          · exact hwf1.rows_quantity r h
          · exact hrq r h
        rows_parent := by
          simp only [admissionCommit]
          intro r hr
          rcases List.mem_append.1 hr with h | h
          · obtain ⟨b0, hb0, hb0id⟩ := hwf1.rows_parent r h
            exact ⟨b0, List.mem_append.2 (Or.inl hb0), hb0id⟩
          · exact ⟨booking, List.mem_append.2 (Or.inr (by simp)),
              (hrbid r h).symm⟩
        rows_user := by
          simp only [admissionCommit]
          intro r hr b hb hbr svc0 hsvc0 hsid0
          rcases List.mem_append.1 hr with hrold | hrnew
          · rcases List.mem_append.1 hb with hbold | hbnew
            · exact hwf1.rows_user r hrold b hbold hbr svc0 hsvc0 hsid0
            · exfalso
              have hbb : b = booking := by simpa using hbnew
              exact hfresh_rows r hrold
                (hbr.symm.trans (congrArg Booking.id hbb))
          · rcases List.mem_append.1 hb with hbold | hbnew
            · exfalso
              exact hfresh_bk b hbold (hbr.trans (hrbid r hrnew))
            · have hbb : b = booking := by simpa using hbnew
              rw [hbb, hbuser]
              have hsm : svc0.id ∈ services.map (·.id) := by
                rw [← hsidseq]
                exact List.mem_map.2 ⟨r, hrnew, hsid0.symm⟩
              obtain ⟨_, husvc0⟩ := @resolved_service_getService db1 uid sds
                svc0 hwf1.services_nodup hsvc0 (by rw [← hserv]; exact hsm)
              exact husvc0.symm
        rows_key_nodup := by
          simp only [admissionCommit]
          rw [List.map_append, List.nodup_append]
          refine ⟨hwf1.rows_key_nodup,
            keys_nodup_of_sid rows booking.id hrnodup hrbid, ?_⟩
          intro x hx hx2
          obtain ⟨r1, hr1, hk1⟩ := List.mem_map.1 hx
          obtain ⟨r2, hr2, hk2⟩ := List.mem_map.1 hx2
          apply hfresh_rows r1 hr1
          have hbid12 : r1.booking_id = r2.booking_id :=
            congrArg Prod.fst (hk1.trans hk2.symm)
          rw [hbid12]
          exact hrbid r2 hr2 }
  · intro svc hsvc
    simp only [admissionCommit] at hsvc
    constructor
    · intro hlim hq1 t
      rw [usageAt_commit db1 booking rows
        (admissionLogs uid conflicts booking.id) svc.id t isConfirmed
        hfresh_rows hfresh_bk hrbid]
      by_cases hcase : isConfirmed booking = true ∧
          booking.start_time ≤ t ∧ t < booking.end_time
      · rw [if_pos hcase]
        have hacT : ac = true := by
          have hcf : isConfirmed booking = true := hcase.1
          rw [isConfirmed, hbstatus] at hcf
          by_contra hacF
          rw [if_neg hacF] at hcf
          exact absurd hcf (by decide)
        have hacfn : admissionAutoConfirm db1 uid conf conflicts = true := by
          rw [← hac]
          exact hacT
        obtain ⟨st, _, _, _, hnoHC⟩ :=
          (admissionAutoConfirm_iff db1 uid conf conflicts).1 hacfn
        by_cases hsmem : svc.id ∈ services.map (·.id)
        · have hnew1 : ((rows.filter
              (fun r => r.service_id == svc.id)).map (·.quantity)).sum = 1 :=
            filter_sid_sum_one rows svc.id hrq hrnodup
              (by rw [hsidseq]; exact hsmem)
          rw [hnew1]
          obtain ⟨hgs, husvc⟩ := @resolved_service_getService db1 uid sds svc
            hwf1.services_nodup hsvc (by rw [← hserv]; exact hsmem)
          have husers : ∀ r ∈ db1.booking_services, r.service_id = svc.id →
              ∀ b ∈ db1.bookings, b.id = r.booking_id → b.user_id = uid := by
            intro r hr hrs b hb hbidr
            have := hwf1.rows_user r hr b hb hbidr svc hsvc hrs.symm
            rw [this]
            exact husvc
          have hts : stt ≤ t := by rw [← hbstart]; exact hcase.2.1
          have hte : t < ett := by rw [← hbend]; exact hcase.2.2
          have hle_det := usage_le_detection db1 uid svc.id stt ett t
            hwf1.rows_quantity hwf1.rows_key_nodup husers hts hte
          by_cases hcond : svc.quantity_available <
              db1.totalQuantityUsed
                (db1.overlappingBookings uid svc.id stt ett none) svc.id + 1
          · have hov : db1.overlappingBookings uid svc.id stt ett none = [] := by
              by_contra hovne
              have hnul : svc.availability_type ≠ .unlimited := by
                rw [hlim]
                decide
              obtain ⟨c, hcmem, hsev⟩ :=
                service_conflict_of_capacity hsmem hgs hnul hcond hovne
              have hcC : c ∈ conflicts := by
                rw [hconf]
                exact hcmem
              exact (hnoHC c hcC).1 hsev
            rw [hov] at hle_det
            have husd : db1.totalQuantityUsed ([] : List Booking) svc.id = 0 := by
              simp [DB.totalQuantityUsed]
            rw [husd] at hle_det
            linarith
          · push_neg at hcond
            linarith
        · have hfil : rows.filter (fun r => r.service_id == svc.id) = [] := by
            rw [List.filter_eq_nil_iff]
            intro r hr hcontra
            apply hsmem
            rw [← hsidseq]
            have hrs : r.service_id = svc.id := by simpa using hcontra
            exact List.mem_map.2 ⟨r, hr, hrs⟩
          rw [hfil]
          simp only [List.map_nil, List.sum_nil, add_zero]
          exact (hinv1 svc hsvc).1 hlim hq1 t
      · rw [if_neg hcase, add_zero]
        exact (hinv1 svc hsvc).1 hlim hq1 t
    · intro huq b1 hb1 b2 hb2 hc1 hc2 hhs1 hhs2 ho1 ho2
      simp only [admissionCommit] at hb1 hb2
      rcases List.mem_append.1 hb1 with h1 | h1
      · rcases List.mem_append.1 hb2 with h2 | h2
        · have e1 := bookingHasService_commit db1 booking rows
            (admissionLogs uid conflicts booking.id) b1 svc.id
            (hfresh_bk b1 h1) hrbid
          have e2 := bookingHasService_commit db1 booking rows
            (admissionLogs uid conflicts booking.id) b2 svc.id
            (hfresh_bk b2 h2) hrbid
          rw [e1] at hhs1
          rw [e2] at hhs2
          exact (hinv1 svc hsvc).2 huq b1 h1 b2 h2 hc1 hc2 hhs1 hhs2 ho1 ho2
        · exfalso
          have hbb2 : b2 = booking := by simpa using h2
          have hacT : ac = true := by
            have hcf := hc2
            rw [hbb2, isConfirmed, hbstatus] at hcf
            by_contra hacF
            rw [if_neg hacF] at hcf
            exact absurd hcf (by decide)
          have hacfn : admissionAutoConfirm db1 uid conf conflicts = true := by
            rw [← hac]
            exact hacT
          obtain ⟨st, _, _, _, hnoHC⟩ :=
            (admissionAutoConfirm_iff db1 uid conf conflicts).1 hacfn
          have hhsb := hhs2
          rw [hbb2] at hhsb
          obtain ⟨r, hr, hrs⟩ := bookingHasService_commit_new db1 booking rows
            (admissionLogs uid conflicts booking.id) svc.id hfresh_rows hhsb
          have hsmem : svc.id ∈ services.map (·.id) := by
            rw [← hsidseq]
            exact List.mem_map.2 ⟨r, hr, hrs⟩
          obtain ⟨hgs, husvc⟩ := @resolved_service_getService db1 uid sds svc
            hwf1.services_nodup hsvc (by rw [← hserv]; exact hsmem)
          have hhs1' : db1.bookingHasService b1 svc.id = true := by
            rw [← bookingHasService_commit db1 booking rows
              (admissionLogs uid conflicts booking.id) b1 svc.id
              (hfresh_bk b1 h1) hrbid]
            exact hhs1
          have hhs1'' := hhs1'
          rw [DB.bookingHasService] at hhs1''
          obtain ⟨r1, hr1, hc1r⟩ := List.any_eq_true.1 hhs1''
          simp only [Bool.and_eq_true, beq_iff_eq] at hc1r
          have hb1user : b1.user_id = uid := by
            have := hwf1.rows_user r1 hr1 b1 h1 hc1r.1.symm svc hsvc hc1r.2.symm
            rw [this]
            exact husvc
          rw [hbb2, hbend] at ho1
          rw [hbb2, hbstart] at ho2
          have hb1mem : b1 ∈ db1.overlappingBookings uid svc.id stt ett none := by
            rw [DB.overlappingBookings, List.mem_filter]
            refine ⟨h1, ?_⟩
            simp only [Bool.and_eq_true, beq_iff_eq, decide_eq_true_eq]
            exact ⟨⟨⟨⟨⟨hb1user, hhs1'⟩, ho1⟩, ho2⟩,
              isActive_of_confirmed hc1⟩, rfl⟩
          have hovne : db1.overlappingBookings uid svc.id stt ett none ≠ [] := by
            intro h0
            rw [h0] at hb1mem
            exact absurd hb1mem (List.not_mem_nil b1)
          obtain ⟨c, hcm, _, hsevc, _⟩ :=
            availability_conflict_of_overlap hsmem hgs huq hovne
          have hcC : c ∈ conflicts := by
            rw [hconf]
            exact mem_detect_conflicts_of_avail hcm
          exact (hnoHC c hcC).2 hsevc
      · rcases List.mem_append.1 hb2 with h2 | h2
        · exfalso
          have hbb1 : b1 = booking := by simpa using h1
          have hacT : ac = true := by
            have hcf := hc1
            rw [hbb1, isConfirmed, hbstatus] at hcf
            by_contra hacF
            rw [if_neg hacF] at hcf
            exact absurd hcf (by decide)
          have hacfn : admissionAutoConfirm db1 uid conf conflicts = true := by
            rw [← hac]
            exact hacT
          obtain ⟨st, _, _, _, hnoHC⟩ :=
            (admissionAutoConfirm_iff db1 uid conf conflicts).1 hacfn
          have hhsb := hhs1
          rw [hbb1] at hhsb
          obtain ⟨r, hr, hrs⟩ := bookingHasService_commit_new db1 booking rows
            (admissionLogs uid conflicts booking.id) svc.id hfresh_rows hhsb
          have hsmem : svc.id ∈ services.map (·.id) := by
            rw [← hsidseq]
            exact List.mem_map.2 ⟨r, hr, hrs⟩
          obtain ⟨hgs, husvc⟩ := @resolved_service_getService db1 uid sds svc
            hwf1.services_nodup hsvc (by rw [← hserv]; exact hsmem)
          have hhs2' : db1.bookingHasService b2 svc.id = true := by
            rw [← bookingHasService_commit db1 booking rows
              (admissionLogs uid conflicts booking.id) b2 svc.id
              (hfresh_bk b2 h2) hrbid]
            exact hhs2
          have hhs2'' := hhs2'
          rw [DB.bookingHasService] at hhs2''
          obtain ⟨r2, hr2, hc2r⟩ := List.any_eq_true.1 hhs2''
          simp only [Bool.and_eq_true, beq_iff_eq] at hc2r
          have hb2user : b2.user_id = uid := by
            have := hwf1.rows_user r2 hr2 b2 h2 hc2r.1.symm svc hsvc hc2r.2.symm
            rw [this]
            exact husvc
          rw [hbb1, hbstart] at ho1
          rw [hbb1, hbend] at ho2
          have hb2mem : b2 ∈ db1.overlappingBookings uid svc.id stt ett none := by
            rw [DB.overlappingBookings, List.mem_filter]
            refine ⟨h2, ?_⟩
            simp only [Bool.and_eq_true, beq_iff_eq, decide_eq_true_eq]
            exact ⟨⟨⟨⟨⟨hb2user, hhs2'⟩, ho2⟩, ho1⟩,
              isActive_of_confirmed hc2⟩, rfl⟩
          have hovne : db1.overlappingBookings uid svc.id stt ett none ≠ [] := by
            intro h0
            rw [h0] at hb2mem
            exact absurd hb2mem (List.not_mem_nil b2)
          obtain ⟨c, hcm, _, hsevc, _⟩ :=
            availability_conflict_of_overlap hsmem hgs huq hovne
          have hcC : c ∈ conflicts := by
            rw [hconf]
            exact mem_detect_conflicts_of_avail hcm
          exact (hnoHC c hcC).2 hsevc
        · have e1 : b1 = booking := by simpa using h1
          have e2 : b2 = booking := by simpa using h2
          rw [e1, e2]

theorem create_booking_outcome (db : DB) (uid : ℕ) (bd : BookingData)
    (now : ℤ) (sess : Option ℕ) (conf : Option ℚ) :
    (create_booking_from_ai db uid bd now sess conf).2 = db ∨
    (∃ cd, bd.customer = some cd ∧
      (create_booking_from_ai db uid bd now sess conf).2 =
        (get_or_create_customer db uid cd).2) ∨
    (create_booking_from_ai db uid bd now sess conf).1.success = true := by
  cases ht : bd.title with
  | none => left; simp [create_booking_from_ai, ht]
  | some title =>
  cases hstv : bd.start_time with
  | none => left; simp [create_booking_from_ai, ht, hstv]
  | some stv =>
  cases hetv : bd.end_time with
  | none => left; simp [create_booking_from_ai, ht, hstv, hetv]
  | some etv =>
  cases hcd : bd.customer with
  | none => left; simp [create_booking_from_ai, ht, hstv, hetv, hcd]
  | some cd =>
  cases hsds : bd.services with
  | none => left; simp [create_booking_from_ai, ht, hstv, hetv, hcd, hsds]
  | some sds =>
    by_cases hemp :
        (validate_services (get_or_create_customer db uid cd).2 uid sds).isEmpty = true
    · right; left
      refine ⟨cd, rfl, ?_⟩
      rw [create_booking_from_ai]
      simp only [ht, hstv, hetv, hcd, hsds]
      rw [if_pos hemp]
    · by_cases hle : parse_datetime etv now ≤ parse_datetime stv now
      · right; left
        refine ⟨cd, rfl, ?_⟩
        rw [create_booking_from_ai]
        simp only [ht, hstv, hetv, hcd, hsds]
        rw [if_neg hemp, if_pos hle]
      · cases hrt : create_booking_services
            (admissionBooking (get_or_create_customer db uid cd).2 uid
              (get_or_create_customer db uid cd).1 title
              (parse_datetime stv now) (parse_datetime etv now)
              (bd.all_day.getD false)
              (admissionAutoConfirm (get_or_create_customer db uid cd).2 uid
                conf
                (detect_conflicts (get_or_create_customer db uid cd).2 uid
                  (parse_datetime stv now) (parse_datetime etv now)
                  ((validate_services (get_or_create_customer db uid cd).2 uid
                    sds).map (·.id)) none))
              sess conf).id
            (((parse_datetime etv now - parse_datetime stv now : ℤ) : ℚ) / 3600)
            (validate_services (get_or_create_customer db uid cd).2 uid sds)
            [] 0 with
        | none =>
          left
          rw [create_booking_from_ai]
          simp only [ht, hstv, hetv, hcd, hsds]
          rw [if_neg hemp, if_neg hle, hrt]
        | some rt =>
          right; right
          rw [create_booking_from_ai]
          simp only [ht, hstv, hetv, hcd, hsds]
          rw [if_neg hemp, if_neg hle, hrt]

/-- Every single admission call — failed or successful — preserves
well-formedness and the confirmed capacity invariant. -/
theorem create_booking_preserves (db : DB) (uid : ℕ) (bd : BookingData)
    (now : ℤ) (sess : Option ℕ) (conf : Option ℚ)
    (hwf : DBWF db) (hinv : ConfirmedCapacityInvariant db) :
    DBWF (create_booking_from_ai db uid bd now sess conf).2 ∧
    ConfirmedCapacityInvariant (create_booking_from_ai db uid bd now sess conf).2 := by
  rcases create_booking_outcome db uid bd now sess conf with h | ⟨cd, _, h⟩ | h
  · rw [h]
    exact ⟨hwf, hinv⟩
  · rw [h]
    exact customer_step_preserves db uid cd hwf hinv
  · exact admission_success_preserves db uid bd now sess conf hwf hinv h

theorem runAdmissions_preserves (ops : List AdmissionCall) :
    ∀ db : DB, DBWF db → ConfirmedCapacityInvariant db →
      DBWF (runAdmissions db ops) ∧
      ConfirmedCapacityInvariant (runAdmissions db ops) := by
  induction ops with
  | nil =>
    intro db hwf hinv
    exact ⟨hwf, hinv⟩
  | cons c rest ih =>
    intro db hwf hinv
    have hstep := create_booking_preserves db c.uid c.data c.now
      c.ai_session_id c.confidence_score hwf hinv
    have hfold : runAdmissions db (c :: rest) =
        runAdmissions (create_booking_from_ai db c.uid c.data c.now
          c.ai_session_id c.confidence_score).2 rest := by
      rw [runAdmissions, runAdmissions, List.foldl_cons]
    rw [hfold]
    exact ih _ hstep.1 hstep.2

/-- **C1.**  The claimed invariant — counting all pending/confirmed/
in_progress reservations — is refuted by the counterexample theorem above:
admission never rejects, and pending bookings count as active.
This theorem settles the amended form: over any catalog whose service ids
are distinct, any settings, and any sequence of admission calls starting
from an empty schedule, the committed states keep the *confirmed* capacity
invariant — a `limited` service with at least one unit of capacity is never
oversubscribed at any instant by confirmed reservations, and a `unique`
service never carries two overlapping confirmed reservations — because a
booking is only confirmed when auto-confirmation found no high/critical
conflict, and detection emits a high/critical conflict precisely when the
window's capacity arithmetic fails. -/
theorem runAdmissions_confirmed_capacity (services : List Service)
    (settings : List CalendarSettings) (nid : ℕ) (ops : List AdmissionCall)
    (hnd : (services.map (·.id)).Nodup) :
    ConfirmedCapacityInvariant
      (runAdmissions (initialDB services settings nid) ops) := by
  have hwf : DBWF (initialDB services settings nid) :=
    { services_nodup := hnd
      bookings_nodup := by simp [initialDB]
      bookings_lt := by intro b hb; simp [initialDB] at hb
      rows_quantity := by intro r hr; simp [initialDB] at hr
      rows_parent := by intro r hr; simp [initialDB] at hr
      rows_user := by intro r hr; simp [initialDB] at hr
      rows_key_nodup := by simp [initialDB] }
  have hinv : ConfirmedCapacityInvariant (initialDB services settings nid) := by
    intro svc hsvc
    constructor
    · intro _ hq1 t
      have h0 : usageAt (initialDB services settings nid) svc.id t isConfirmed
          = 0 := by
        rw [usageAt]
        simp [initialDB]
      rw [h0]
      linarith
    · intro _ b1 hb1
      simp [initialDB] at hb1
  exact (runAdmissions_preserves ops (initialDB services settings nid)
    hwf hinv).2

/-- Witness for C1's theorem: a concrete one-service catalog with distinct
ids and a concrete admission sequence. -/
theorem runAdmissions_confirmed_capacity_witness :
    (([kayak].map (·.id)).Nodup) ∧
    ConfirmedCapacityInvariant (runAdmissions (initialDB [kayak] [] 10)
      [kayakCall]) :=
  ⟨by decide,
   runAdmissions_confirmed_capacity [kayak] [] 10 [kayakCall] (by decide)⟩

end Chedula
